import Mathlib

/-
Verification development for the CatSalom repository (a gesture-driven arcade
game).  The development shallowly embeds, over the real numbers, the gesture
classifier of src/utils/gesture.ts, the earlier classifier iteration found in
src/unnamed/part_001 (the one with the CIRCLE / TRIANGLE closed-shape branch),
and the simulation core of src/components/GameCanvas.tsx (first component in
that file; the initialization effect is taken from the second component at
lines 1250-1261, which is the iteration cited by the specification for the
per-level reset).  JavaScript numbers are modelled as real numbers, timestamps
as integers, and Math.random outcomes as adversarial event parameters.
-/

open Classical Real

noncomputable section

namespace CatSalom

/-! ### Geometry primitives shared by every classifier iteration -/

/-- A 2D point, as in src/types (interface Point). -/
structure Point where
  x : ℝ
  y : ℝ

instance : Inhabited Point := ⟨⟨0, 0⟩⟩

/-- Distance between two points; Math.hypot in the sources. -/
def getDistance (p q : Point) : ℝ :=
  Real.sqrt ((q.x - p.x) ^ 2 + (q.y - p.y) ^ 2)

/-- Total polyline length: sum of consecutive point distances
(getPathLength in gesture.ts and in src/unnamed/part_001). -/
def getPathLength : List Point → ℝ
  | p :: q :: rest => getDistance p q + getPathLength (q :: rest)
  | _ => 0

/-- Sum of absolute consecutive x-differences (the dx accumulators of the
sources). -/
def absDxSum : List Point → ℝ
  | p :: q :: rest => |q.x - p.x| + absDxSum (q :: rest)
  | _ => 0

/-- Sum of absolute consecutive y-differences. -/
def absDySum : List Point → ℝ
  | p :: q :: rest => |q.y - p.y| + absDySum (q :: rest)
  | _ => 0

/-- Fold computing the minimum of f over a stroke, seeded with the first
point (the sources seed with Infinity and scan the whole list; for nonempty
lists the two agree). -/
def foldMinOf (f : Point → ℝ) (pts : List Point) : ℝ :=
  pts.foldl (fun m p => min m (f p)) (f pts.headI)

/-- Fold computing the maximum of f over a stroke, seeded with the first
point. -/
def foldMaxOf (f : Point → ℝ) (pts : List Point) : ℝ :=
  pts.foldl (fun m p => max m (f p)) (f pts.headI)

/-- Bounding box left edge (minX of the sources). -/
def minXof (pts : List Point) : ℝ := foldMinOf (fun p => p.x) pts

/-- Bounding box right edge (maxX). -/
def maxXof (pts : List Point) : ℝ := foldMaxOf (fun p => p.x) pts

/-- Bounding box top edge (minY; smaller y is visually higher). -/
def minYof (pts : List Point) : ℝ := foldMinOf (fun p => p.y) pts

/-- Bounding box bottom edge (maxY). -/
def maxYof (pts : List Point) : ℝ := foldMaxOf (fun p => p.y) pts

/-- Bounding box width. -/
def widthOf (pts : List Point) : ℝ := maxXof pts - minXof pts

/-- Bounding box height. -/
def heightOf (pts : List Point) : ℝ := maxYof pts - minYof pts

/-- JavaScript (x or 1) guard used for every denominator that could be zero:
a zero denominator is replaced by 1.  (In JS, 0 is falsy, so width || 1 is 1
exactly when width is 0.) -/
def safeDenom (x : ℝ) : ℝ := if x = 0 then 1 else x

/-- The last point of a stroke, written points[points.length - 1] in the
sources. -/
def endPt (pts : List Point) : Point := pts.getD (pts.length - 1) default

/-- The symbol vocabulary.  The snapshot contains two iterations of the
SpellType enum (src/unnamed/part_000); this inductive is their union, which is
harmless since each classifier only ever returns members of its own
vocabulary. -/
inductive SpellType
  | HORIZONTAL
  | VERTICAL
  | LIGHTNING
  | C_SHAPE
  | S_SHAPE
  | SEVEN_SHAPE
  | EIGHT_SHAPE
  | X_SHAPE
  | CARET
  | V_SHAPE
  | CIRCLE
  | TRIANGLE
deriving DecidableEq

namespace Gesture

/-! ### The classifier of src/utils/gesture.ts -/

/-- Orientation test of gesture.ts (strict counter-clockwise comparison). -/
def ccw (p1 p2 p3 : Point) : Prop :=
  (p3.y - p1.y) * (p2.x - p1.x) > (p2.y - p1.y) * (p3.x - p1.x)

/-- Segment intersection test of gesture.ts (doLinesIntersect).  The source
compares booleans with !==, modelled here as negated equivalence. -/
def doLinesIntersect (a b c d : Point) : Prop :=
  (¬(ccw a c d ↔ ccw b c d)) ∧ (¬(ccw a b c ↔ ccw a b d))

/-- Index pairs visited by the strided double loop of the intersection check
in gesture.ts: i runs over even indices below length - 3 and j over even
indices from i + 4 below length - 3; the tested segments join index k to
index k + 2 (stride 2). -/
def intersectPairs (pts : List Point) : Finset (ℕ × ℕ) :=
  (Finset.range pts.length ×ˢ Finset.range pts.length).filter fun ij =>
    ij.1 % 2 = 0 ∧ ij.2 % 2 = 0 ∧ ij.1 + 4 ≤ ij.2 ∧
    ij.1 + 3 < pts.length ∧ ij.2 + 3 < pts.length ∧
    doLinesIntersect (pts.getD ij.1 default) (pts.getD (ij.1 + 2) default)
      (pts.getD ij.2 default) (pts.getD (ij.2 + 2) default)

/-- Number of detected self-intersections; the double loop only runs when the
path length exceeds 60. -/
def intersectionCount (pts : List Point) : ℕ :=
  if getPathLength pts > 60 then (intersectPairs pts).card else 0

/-- Aspect ratio width / (height or 1) of gesture.ts. -/
def aspectRat (pts : List Point) : ℝ := widthOf pts / safeDenom (heightOf pts)

/-- Linearity startEndDist / (totalLength or 1) of gesture.ts. -/
def linearityOf (pts : List Point) : ℝ :=
  getDistance pts.headI (endPt pts) / safeDenom (getPathLength pts)

/-- The gesture classifier of src/utils/gesture.ts (recognizeGesture,
lines 25-157).  The source returns from a cascade of guarded branches;
branches whose inner test fails fall through to the next branch, which the
flattened conditions below reproduce. -/
def recognizeGesture (points : List Point) : Option SpellType :=
  if points.length < 10 then none else
  let start := points.headI
  let stop := endPt points
  let totalLength := getPathLength points
  let startEndDist := getDistance start stop
  let minX := minXof points
  let maxX := maxXof points
  let minY := minYof points
  let maxY := maxYof points
  let width := maxX - minX
  let height := maxY - minY
  let aspect := width / safeDenom height
  let linearity := startEndDist / safeDenom totalLength
  let nInter := intersectionCount points
  let isClosed : Prop := startEndDist < totalLength * 0.25
  -- 1. figure-eight: closed with a crossing
  if isClosed ∧ 1 ≤ nInter ∧ height > 30 then some .EIGHT_SHAPE
  -- 2. X: open with a crossing and a near-square box
  else if ¬isClosed ∧ 1 ≤ nInter ∧ aspect > 0.4 ∧ aspect < 2.5 then some .X_SHAPE
  -- 3. axis-aligned lines
  else if linearity > 0.85 ∧ nInter = 0 ∧ width > height * 1.5 then some .HORIZONTAL
  else if linearity > 0.85 ∧ nInter = 0 ∧ height > width * 1.5 then some .VERTICAL
  -- 4. the seven shape (top stroke then downward stroke).  The source splits
  -- at Math.floor(length * 0.4), i.e. 2 * length / 5 on natural numbers.
  else if start.y < minY + height * 0.3 ∧ width > 20 ∧ height > 20 ∧ nInter = 0 ∧
      absDxSum (points.take (2 * points.length / 5)) >
        absDySum (points.take (2 * points.length / 5)) * 1.5 ∧
      (endPt (points.drop (2 * points.length / 5))).y >
        (points.drop (2 * points.length / 5)).headI.y + height * 0.4 then
    some .SEVEN_SHAPE
  -- 5. C: open curve with the gap on the right
  else if startEndDist > totalLength * 0.2 ∧ nInter = 0 ∧
      start.x > minX + width * 0.5 ∧ stop.x > minX + width * 0.5 ∧
      (points.getD (points.length / 2) default).x < minX + width * 0.4 ∧
      height > width * 0.5 then
    some .C_SHAPE
  -- 6. S: top start, bottom end, first half bulges left, second half right
  else if height > 30 ∧ nInter = 0 ∧
      start.y < minY + height * 0.3 ∧ stop.y > maxY - height * 0.3 ∧
      minXof (points.take (points.length / 2)) < start.x - width * 0.15 ∧
      maxXof (points.drop (points.length / 2)) > stop.x + width * 0.15 then
    some .S_SHAPE
  -- 7. lightning: strong horizontal back-and-forth travel
  else if absDxSum points / safeDenom width > 2.0 ∧ start.y < stop.y ∧
      linearity < 0.8 ∧ nInter = 0 then
    some .LIGHTNING
  else none

end Gesture

namespace GestureV1

/-! ### The classifier iteration of src/unnamed/part_001 (the one with the
closed-shape CIRCLE / TRIANGLE branch).  This is the iteration that pairs
with the first GameCanvas component (same CARET / V_SHAPE / CIRCLE / TRIANGLE
vocabulary). -/

/-- Polygon area by the shoelace formula over the closed index cycle
(getPolygonArea in part_001). -/
def getPolygonArea (pts : List Point) : ℝ :=
  |∑ i ∈ Finset.range pts.length,
      ((pts.getD i default).x * (pts.getD ((i + 1) % pts.length) default).y -
        (pts.getD ((i + 1) % pts.length) default).x * (pts.getD i default).y)| / 2

/-- Index bookkeeping of the forEach loop: index of the first point attaining
the minimal y (the source starts from Infinity and keeps the index of each
strict improvement). -/
def minYIdxAux : List Point → ℝ → ℕ → ℕ → ℕ
  | [], _, best, _ => best
  | q :: rest, bestY, bestIdx, cur =>
    if q.y < bestY then minYIdxAux rest q.y cur (cur + 1)
    else minYIdxAux rest bestY bestIdx (cur + 1)

/-- Index of the first point attaining the minimal y (minYIndex). -/
def minYIdx (pts : List Point) : ℕ :=
  match pts with
  | [] => 0
  | p :: rest => minYIdxAux rest p.y 0 1

/-- Index bookkeeping for the maximal y (maxYIndex). -/
def maxYIdxAux : List Point → ℝ → ℕ → ℕ → ℕ
  | [], _, best, _ => best
  | q :: rest, bestY, bestIdx, cur =>
    if q.y > bestY then maxYIdxAux rest q.y cur (cur + 1)
    else maxYIdxAux rest bestY bestIdx (cur + 1)

/-- Index of the first point attaining the maximal y. -/
def maxYIdx (pts : List Point) : ℕ :=
  match pts with
  | [] => 0
  | p :: rest => maxYIdxAux rest p.y 0 1

/-- Horizontal coordinate of the bounding-box center used by the closed-shape
branch (centerX = minX + width / 2). -/
def bboxCenterX (pts : List Point) : ℝ := minXof pts + widthOf pts / 2

/-- Vertical coordinate of the bounding-box center (centerY). -/
def bboxCenterY (pts : List Point) : ℝ := minYof pts + heightOf pts / 2

/-- Distances of every stroke point from the bounding-box center (the radii
array of part_001). -/
def radii (pts : List Point) : List ℝ :=
  pts.map fun p =>
    Real.sqrt ((p.x - bboxCenterX pts) ^ 2 + (p.y - bboxCenterY pts) ^ 2)

/-- Mean radius (avgRadius). -/
def avgRadius (pts : List Point) : ℝ := (radii pts).sum / (radii pts).length

/-- Radius variance (variance). -/
def radiusVariance (pts : List Point) : ℝ :=
  ((radii pts).map fun r => (r - avgRadius pts) ^ 2).sum / (radii pts).length

/-- Coefficient of variation of the radii: standard deviation over mean
(cv in part_001). -/
def radiusCV (pts : List Point) : ℝ :=
  Real.sqrt (radiusVariance pts) / avgRadius pts

/-- Perimeter used by the roundness metric: path length plus closing chord. -/
def perimeterOf (pts : List Point) : ℝ :=
  getPathLength pts + getDistance pts.headI (endPt pts)

/-- Roundness 4 pi area / perimeter squared. -/
def roundnessOf (pts : List Point) : ℝ :=
  4 * π * getPolygonArea pts / (perimeterOf pts * perimeterOf pts)

/-- Branches of part_001 after the closed-shape branch declined: vertex
shapes, axis-aligned lines, then the lightning checks. -/
def afterClosed (points : List Point) : Option SpellType :=
  let start := points.headI
  let stop := endPt points
  let totalLength := getPathLength points
  let startEndDist := getDistance start stop
  let minY := minYof points
  let maxY := maxYof points
  let width := widthOf points
  let height := heightOf points
  let aspect := width / safeDenom height
  let linearity := startEndDist / safeDenom totalLength
  let apexPos : ℝ := (minYIdx points : ℝ) / points.length
  let nadirPos : ℝ := (maxYIdx points : ℝ) / points.length
  -- 3. vertex shapes (caret, v); sides must drop (rise) by 20% of height
  if height > 15 ∧ width > 15 ∧ apexPos > 0.2 ∧ apexPos < 0.8 ∧
      start.y - minY > height * 0.20 ∧ stop.y - minY > height * 0.20 then
    some .CARET
  else if height > 15 ∧ width > 15 ∧ nadirPos > 0.2 ∧ nadirPos < 0.8 ∧
      maxY - start.y > height * 0.20 ∧ maxY - stop.y > height * 0.20 then
    some .V_SHAPE
  -- 4. axis-aligned lines
  else if linearity > 0.80 ∧ width > height * 1.5 then some .HORIZONTAL
  else if linearity > 0.80 ∧ height > width * 1.5 then some .VERTICAL
  -- 5. lightning, in two checks sharing a size guard
  else if totalLength > 40 ∧ aspect > 0.2 ∧ aspect < 5.0 ∧
      absDxSum points / safeDenom width > 1.3 ∧
      start.y < stop.y + height * 0.2 then
    some .LIGHTNING
  else if totalLength > 40 ∧ aspect > 0.2 ∧ aspect < 5.0 ∧
      start.x < stop.x ∧ start.y < stop.y + height * 0.2 ∧ linearity < 0.85 then
    some .LIGHTNING
  else none

/-- The classifier of src/unnamed/part_001 (recognizeGesture).  The
closed-shape branch runs first; inside it, high roundness or a low radius
coefficient of variation yields CIRCLE, low roundness with high variation
yields TRIANGLE, and the ambiguous remainder is biased toward CIRCLE.  When
the closed-shape guard or its aspect-ratio window declines, control falls
through to the remaining branches (afterClosed). -/
def recognizeGesture (points : List Point) : Option SpellType :=
  if points.length < 8 then none else
  let start := points.headI
  let stop := endPt points
  let totalLength := getPathLength points
  let startEndDist := getDistance start stop
  let width := widthOf points
  let height := heightOf points
  let aspect := width / safeDenom height
  if startEndDist < totalLength * 0.50 ∧ totalLength > 60 then
    if aspect > 0.3 ∧ aspect < 3.3 then
      if roundnessOf points > 0.60 then some .CIRCLE
      else if radiusCV points < 0.35 then some .CIRCLE
      else if roundnessOf points < 0.55 ∧ radiusCV points > 0.25 then some .TRIANGLE
      else some .CIRCLE
    else afterClosed points
  else afterClosed points

end GestureV1

namespace Game

/-! ### The simulation core of src/components/GameCanvas.tsx (first component
of that file, which pairs with the part_001 classifier vocabulary) together
with the App state holder.  One discrete step corresponds to one React event:
a game-state change, one animation frame (gameLoop), one pointer event, or one
skill-button click.  Math.random outcomes travel as adversarial event
parameters.  The worlds carry two instrumentation counters that no claim
theorem treats as game data: resetCount, bumped exactly by the initialization
effect, and bossCompletions, bumped exactly by the boss-completion branch of
checkGesture. -/

/-- GameState of src/types. -/
inductive GameStateF
  | MENU
  | PLAYING
  | LEVEL_COMPLETE
  | GAME_OVER
deriving DecidableEq

/-- The color strings that appear in GameCanvas and getSymbolColor, as an
enumeration (their exact text plays no role in the logic). -/
inductive ColorT
  | gray555
  | red_ef4444
  | red_f87171
  | blue_60a5fa
  | white_FFFFFF
  | amber_fbbf24
  | yellow_fef08a
  | cyan_a5f3fc
  | pink_f472b6
  | purple_c084fc
deriving DecidableEq

/-- getSymbolColor of part_001 (the gesture module paired with this
GameCanvas iteration). -/
def getSymbolColor : SpellType → ColorT
  | .TRIANGLE => .amber_fbbf24
  | .LIGHTNING => .yellow_fef08a
  | .CIRCLE => .cyan_a5f3fc
  | .CARET => .pink_f472b6
  | .V_SHAPE => .purple_c084fc
  | _ => .white_FFFFFF

/-- Enemy identifiers: random ids from spawnEnemy (an adversarial tag) and
the boss-sigil-i ids of spawnBossSigils. -/
inductive EnemyId
  | rnd (v : ℕ)
  | bossSigil (i : ℕ)
deriving DecidableEq

/-- Enemy of src/types; position and speed are reals, the two optional flags
are booleans. -/
structure Enemy where
  id : EnemyId
  x : ℝ
  y : ℝ
  speed : ℝ
  symbol : SpellType
  color : ColorT
  radius : ℝ
  spawnTime : ℤ
  isBossSigil : Bool
  isProjectile : Bool

/-- One createParticles call.  The source pushes count individual particles
with random velocities and sizes; all particles of one call share position,
color, glow flag and life, so a call is modelled at burst granularity (the
randomized per-particle velocity and size do not influence any claim). -/
structure Burst where
  x : ℝ
  y : ℝ
  color : ColorT
  count : ℕ
  glow : Bool
  life : ℝ

/-- skillsRef of GameCanvas. -/
structure Skills where
  shieldActive : Bool
  shieldEndTime : ℤ
  timeSlowActive : Bool
  timeSlowEndTime : ℤ
  timeScale : ℝ

/-- One entry of the cooldowns state ({ end, total }); end is a Lean keyword,
hence endT. -/
structure Cooldown where
  endT : ℤ
  total : ℤ
deriving DecidableEq

/-- The cooldowns state of GameCanvas. -/
structure Cooldowns where
  shield : Cooldown
  hourglass : Cooldown
  bomb : Cooldown

/-- bossRef of GameCanvas (nextAttackTime exists in the source but is never
read or written). -/
structure BossSt where
  active : Bool
  maxSigils : ℤ
  currentSigils : ℤ

/-- The three abilities. -/
inductive SkillId
  | shield
  | hourglass
  | bomb
deriving DecidableEq

/-- The complete mutable state of App plus GameCanvas: progression state,
registries, skills, boss state, the pointer-drawing buffer, and the two
instrumentation counters. -/
structure World where
  gs : GameStateF
  biomeIndex : ℕ
  level : ℕ
  totalCleared : ℕ
  score : ℤ
  health : ℤ
  enemies : List Enemy
  particles : List Burst
  lastSpawnTime : ℤ
  isPaused : Bool
  skills : Skills
  cooldowns : Cooldowns
  boss : BossSt
  isDrawing : Bool
  drawingPts : List Point
  resetCount : ℕ
  bossCompletions : ℕ

/-- maxHealth of GameCanvas. -/
def maxHealth : ℤ := 5

/-- LEVEL_SCORES of src/utils/gameConfig.ts. -/
def LEVEL_SCORES : List ℤ := [30, 70, 120, 180, 250, 330, 420, 520, 630, 750]

/-- Number of biomes (BIOME_ORDER.length). -/
def biomeCount : ℕ := 7

/-- getTargetScore of gameConfig: 0 for the boss level, otherwise the level
base (with the JS undefined-or-1000 fallback, which also covers the level-0
index -1 access) scaled by the multiplier and floored. -/
def getTargetScore (level : ℕ) (mult : ℚ) : ℤ :=
  if level > 10 then 0
  else match level with
    | 0 => ⌊(1000 : ℚ) * mult⌋
    | l + 1 => ⌊(LEVEL_SCORES.getD l 1000 : ℚ) * mult⌋

/-- The target score the first GameCanvas component derives:
getTargetScore(currentLevel, 1 + currentBiomeIndex * 0.2). -/
def targetScoreOf (w : World) : ℤ :=
  getTargetScore w.level (1 + (w.biomeIndex : ℚ) * (1 / 5))

/-- Appends one createParticles call. -/
def addBurst (x y : ℝ) (c : ColorT) (count : ℕ) (glow : Bool) (w : World) : World :=
  { w with particles := w.particles ++ [⟨x, y, c, count, glow, 1⟩] }

/-- handleLevelComplete of GameCanvas: leaving the boss level advances the
biome (wrapping after the last) and resets the level to 1, otherwise the
level increments; the cleared-level counter increments and the game state
becomes LEVEL_COMPLETE. -/
def handleLevelComplete (w : World) : World :=
  let w1 :=
    if w.level = 11 then
      if w.biomeIndex < biomeCount - 1 then
        { w with
          biomeIndex := w.biomeIndex + 1
          level := 1 }
      else
        { w with
          biomeIndex := 0
          level := 1 }
    else
      { w with level := w.level + 1 }
  { w1 with
    totalCleared := w1.totalCleared + 1
    gs := .LEVEL_COMPLETE }

/-- The live entities whose assigned symbol matches the classified one (the
targets list of checkGesture, line 208). -/
def targetsOf (g : SpellType) (w : World) : List Enemy :=
  w.enemies.filter fun e => decide (e.symbol = g)

/-- Number of matched boss sigils (bossSigilsDestroyed of checkGesture). -/
def sigilKills (g : SpellType) (w : World) : ℤ :=
  (((targetsOf g w).filter fun t => t.isBossSigil).length : ℤ)

/-- Number of matched regular enemies. -/
def regularKills (g : SpellType) (w : World) : ℤ :=
  (((targetsOf g w).filter fun t => !t.isBossSigil).length : ℤ)

/-- Score credited per destroyed regular enemy (line 222): nothing on the
boss level, otherwise 10 scaled by the biome index. -/
def killValue (w : World) : ℤ :=
  if w.level = 11 then 0 else 10 * (1 + (w.biomeIndex : ℤ))

/-- The boss-completion condition of one resolution: at least one sigil was
destroyed and the decremented counter is at or below zero. -/
def firedBy (g : SpellType) (w : World) : Prop :=
  0 < sigilKills g w ∧ w.boss.currentSigils - sigilKills g w ≤ 0

/-- checkGesture of the first GameCanvas component (lines 195-247): classify
the drawn stroke, select every live enemy whose symbol matches, remove them
all by id, credit score for regular kills on non-boss levels, decrement the
sigil counter for destroyed sigils and complete the boss when it reaches
zero (with the 1000 bonus); a non-matching classification or an empty target
list only emits feedback particles.  (The source accumulates
bossSigilsDestroyed and scoreToAdd in one forEach pass over targets; the
filter-length forms below are that accumulation.) -/
def checkGesture (pts : List Point) (w : World) : World :=
  if pts.length < 2 then w else
  let lastPt := endPt pts
  match GestureV1.recognizeGesture pts with
  | none => addBurst lastPt.x lastPt.y .gray555 5 false w
  | some g =>
    let targets := targetsOf g w
    if 0 < targets.length then
      let killBursts := targets.map fun t => (⟨t.x, t.y, t.color, 20, true, 1⟩ : Burst)
      let bossSigilsDestroyed : ℤ := sigilKills g w
      let scoreToAdd : ℤ := regularKills g w * killValue w
      let targetIds := targets.map fun t => t.id
      let w1 :=
        { w with
          enemies := w.enemies.filter fun e => decide (e.id ∉ targetIds)
          particles := w.particles ++ killBursts
          score := if 0 < scoreToAdd then w.score + scoreToAdd else w.score }
      if 0 < bossSigilsDestroyed then
        let sig := w1.boss.currentSigils - bossSigilsDestroyed
        let w2 := { w1 with boss := { w1.boss with currentSigils := sig } }
        if sig ≤ 0 then
          handleLevelComplete
            { w2 with score := w2.score + 1000, bossCompletions := w2.bossCompletions + 1 }
        else w2
      else w1
    else addBurst lastPt.x lastPt.y .red_ef4444 8 false w

/-- activateSkill of GameCanvas (lines 166-189); note the source itself has
no cooldown guard, the guard lives in the SkillButton component. -/
def activateSkill (now : ℤ) (winW winH : ℝ) (sk : SkillId) (w : World) : World :=
  match sk with
  | .shield =>
    { w with
      skills :=
        { w.skills with
          shieldActive := true
          shieldEndTime := now + 4000 }
      cooldowns := { w.cooldowns with shield := ⟨now + 15000, 15000⟩ } }
  | .hourglass =>
    { w with
      skills :=
        { w.skills with
          timeSlowActive := true
          timeScale := 0.1
          timeSlowEndTime := now + 4000 }
      cooldowns := { w.cooldowns with hourglass := ⟨now + 20000, 20000⟩ } }
  | .bomb =>
    { w with
      particles := w.particles ++ [⟨winW / 2, winH / 2, .white_FFFFFF, 50, true, 1⟩]
      enemies := w.enemies.filter fun e => e.isBossSigil
      cooldowns := { w.cooldowns with bomb := ⟨now + 25000, 25000⟩ } }

/-- Cleared-level threshold unlocking each skill (the isUnlocked props of the
three SkillButton instances in the first component). -/
def unlockThresholdOf : SkillId → ℕ
  | .shield => 10
  | .hourglass => 15
  | .bomb => 30

/-- The cooldown record behind a given button. -/
def cooldownOf (sk : SkillId) (w : World) : Cooldown :=
  match sk with
  | .shield => w.cooldowns.shield
  | .hourglass => w.cooldowns.hourglass
  | .bomb => w.cooldowns.bomb

/-- SkillButton progress (lines 675-686): zero once the end stamp has passed,
otherwise remaining over total; the button is disabled exactly when the
progress is positive. -/
def skillProgress (now : ℤ) (cd : Cooldown) : ℚ :=
  if cd.endT ≤ now then 0 else ((cd.endT - now : ℤ) : ℚ) / (cd.total : ℚ)

/-- One click on a skill button: the skills bar only renders in the PLAYING
state, a locked button has no handler, a disabled button (positive cooldown
progress) swallows the click, and otherwise activateSkill runs. -/
def clickSkill (sk : SkillId) (now : ℤ) (winW winH : ℝ) (w : World) : World :=
  if w.gs ≠ .PLAYING then w
  else if w.totalCleared < unlockThresholdOf sk then w
  else if 0 < skillProgress now (cooldownOf sk w) then w
  else activateSkill now winW winH sk w

/-- The Math.random draws consumed by one spawnEnemy call. -/
structure SpawnRnd where
  side : Fin 4
  frac : ℝ
  speedFrac : ℝ
  spellIdx : ℕ
  idVal : ℕ

/-- The symbol pool built by spawnEnemy from the current difficulty. -/
def spawnPool (level biome : ℕ) : List SpellType :=
  [SpellType.HORIZONTAL, SpellType.VERTICAL] ++
  (if level > 2 ∨ biome > 0 then [SpellType.CARET] else []) ++
  (if level > 4 ∨ biome > 0 then [SpellType.V_SHAPE] else []) ++
  (if level > 6 ∨ biome > 0 then [SpellType.LIGHTNING] else []) ++
  (if level > 8 ∨ biome > 1 then [SpellType.CIRCLE] else []) ++
  (if level > 5 ∧ biome > 0 then [SpellType.TRIANGLE] else [])

/-- spawnEnemy of GameCanvas (lines 91-133): no spawn while fully
time-slowed; otherwise one enemy appears on a random side of the padded
perimeter with difficulty-scaled speed and a symbol from the pool. -/
def spawnEnemy (timestamp : ℤ) (winW winH : ℝ) (r : SpawnRnd) (w : World) : World :=
  if w.skills.timeSlowActive ∧ w.skills.timeScale < 0.1 then w else
  let padding : ℝ := 60
  let pos : ℝ × ℝ :=
    match r.side with
    | 0 => (r.frac * winW, -padding)
    | 1 => (winW + padding, r.frac * winH)
    | 2 => (r.frac * winW, winH + padding)
    | 3 => (-padding, r.frac * winH)
  let difficultyMultiplier : ℝ := 1 + (w.biomeIndex : ℝ) * 0.3 + (w.level : ℝ) * 0.15
  let speedBase : ℝ := if w.level = 11 then 3.0 else 1.2
  let pool := spawnPool w.level w.biomeIndex
  let symbol := pool.getD (r.spellIdx % pool.length) .HORIZONTAL
  let e : Enemy :=
    { id := .rnd r.idVal
      x := pos.1
      y := pos.2
      speed := (speedBase + r.speedFrac * difficultyMultiplier) * 0.8
      symbol := symbol
      color := getSymbolColor symbol
      radius := 22
      spawnTime := timestamp
      isBossSigil := false
      isProjectile := w.level = 11 }
  { w with enemies := w.enemies ++ [e] }

/-- spawnBossSigils of GameCanvas (lines 135-164): the registry is replaced
by 4 + biomeIndex sigils arranged evenly on a radius-130 ring around the
center, the boss state activates and both sigil counters are set to the
sigil count. -/
def spawnBossSigils (winW winH : ℝ) (w : World) : World :=
  let count := 4 + w.biomeIndex
  let pool := [SpellType.HORIZONTAL, SpellType.VERTICAL, SpellType.CARET,
    SpellType.V_SHAPE, SpellType.LIGHTNING, SpellType.CIRCLE, SpellType.TRIANGLE]
  let sigils := (List.range count).map fun (i : ℕ) =>
    let angle : ℝ := ((i : ℝ) / (count : ℝ)) * (2 * π)
    let symbol := pool.getD (i % pool.length) .HORIZONTAL
    ({ id := .bossSigil i
       x := winW / 2 + Real.cos angle * 130
       y := winH / 2 + Real.sin angle * 130
       speed := 0
       symbol := symbol
       color := .red_ef4444
       radius := 35
       spawnTime := 0
       isBossSigil := true
       isProjectile := false } : Enemy)
  { w with
    enemies := sigils
    boss :=
      { active := true
        maxSigils := (count : ℤ)
        currentSigils := (count : ℤ) } }

/-- Ability-timer expiry at the top of gameLoop (lines 306-313). -/
def expireSkills (now : ℤ) (w : World) : World :=
  let s := w.skills
  let s1 := if s.shieldActive ∧ now > s.shieldEndTime then { s with shieldActive := false } else s
  let s2 :=
    if s1.timeSlowActive ∧ now > s1.timeSlowEndTime then
      { s1 with
        timeSlowActive := false
        timeScale := 1.0 }
    else s1
  { w with skills := s2 }

/-- Movement of one non-sigil enemy straight toward the center (lines
374-381).  The source moves by (cos a, sin a) of a = atan2(dy, dx); for a
nonzero offset that equals (dx / d, dy / d), and atan2(0, 0) = 0 makes the
degenerate case move by (1, 0). -/
def moveEnemy (cX cY dt : ℝ) (e : Enemy) : Enemy :=
  if e.isBossSigil then e else
  let dx := cX - e.x
  let dy := cY - e.y
  let d := Real.sqrt (dx ^ 2 + dy ^ 2)
  if d = 0 then { e with x := e.x + e.speed * dt }
  else
    { e with
      x := e.x + dx / d * e.speed * dt
      y := e.y + dy / d * e.speed * dt }

/-- The collision predicate of the movement loop (line 385): a non-sigil
enemy whose pre-move distance from the center is below 45. -/
def collides (cX cY : ℝ) (e : Enemy) : Prop :=
  e.isBossSigil = false ∧ Real.sqrt ((cX - e.x) ^ 2 + (cY - e.y) ^ 2) < 45

/-- The movement-and-collision loop of gameLoop (lines 371-400).  The source
iterates backward splicing colliding enemies out; each enemy is moved and
tested independently against the fixed center, so the result is the original
order with colliding non-sigil enemies removed and survivors moved.  Every
collision pushes one burst and, without an active shield, decrements health;
a decrement that reaches zero or less sets GAME_OVER. -/
def moveCollide (winW winH : ℝ) (w : World) : World :=
  let cX := winW / 2
  let cY := winH / 2
  let dt := w.skills.timeScale
  let k : ℤ := ((w.enemies.filter fun e => decide (collides cX cY e)).length : ℤ)
  let survivors :=
    (w.enemies.filter fun e => decide (¬ collides cX cY e)).map (moveEnemy cX cY dt)
  let shield := w.skills.shieldActive
  let bursts :=
    (w.enemies.filter fun e => decide (collides cX cY e)).map fun _ =>
      if shield then (⟨cX, cY, .blue_60a5fa, 15, true, 1⟩ : Burst)
      else (⟨cX, cY, .red_ef4444, 30, true, 1⟩ : Burst)
  let health1 := if shield then w.health else w.health - k
  let gs1 :=
    if shield = false ∧ 1 ≤ k ∧ health1 ≤ 0 then GameStateF.GAME_OVER else w.gs
  { w with
    enemies := survivors
    health := health1
    gs := gs1
    particles := w.particles ++ bursts }

/-- Particle aging of gameLoop (lines 458-482) at burst granularity: every
burst loses 0.02 life and dead bursts are culled.  (The randomized
per-particle drift positions are not tracked; no claim mentions them.) -/
def particleStep (w : World) : World :=
  { w with
    particles :=
      (w.particles.map fun b => { b with life := b.life - 0.02 }).filter fun b =>
        decide (0 < b.life) }

/-- Sigil orbit of the boss branch (lines 344-354): each sigil rotates about
the center by 0.002 * timeScale radians at constant distance.  The source
computes dist and atan2 and re-projects; the rotation-matrix form below is
the same map, including the degenerate center case. -/
def rotateSigils (winW winH : ℝ) (w : World) : World :=
  let cX := winW / 2
  let cY := winH / 2
  let delta := 0.002 * w.skills.timeScale
  { w with
    enemies := w.enemies.map fun e =>
      if e.isBossSigil then
        let dx := e.x - cX
        let dy := e.y - cY
        { e with
          x := cX + dx * Real.cos delta - dy * Real.sin delta
          y := cY + dy * Real.cos delta + dx * Real.sin delta }
      else e }

/-- The spawn interval of the normal branch (line 363). -/
def normalSpawnRate (level biome : ℕ) : ℚ :=
  1800 / (1 + (level : ℚ) * (1 / 10) + (biome : ℚ) * (1 / 5))

/-- The spawn interval of the boss branch (line 357). -/
def bossSpawnRate (biome : ℕ) : ℚ :=
  1500 / (1 + (biome : ℚ) * (1 / 5))

/-- One gameLoop invocation (lines 282-502).  A paused frame only records the
timestamp; otherwise ability timers expire, the score-versus-target
progression check may complete the level and abandon the frame, then the boss
or normal spawn branch runs, enemies move and collide, and particles age.
timestamp is the requestAnimationFrame stamp, now the Date.now stamp.  The
loop only runs in the PLAYING state (the loop-management effect cancels the
animation frame otherwise). -/
def tick (timestamp now : ℤ) (winW winH : ℝ) (r : SpawnRnd) (w : World) : World :=
  if w.gs ≠ .PLAYING then w
  else if w.isPaused then { w with lastSpawnTime := timestamp }
  else
    let w1 := expireSkills now w
    if w1.level ≠ 11 ∧ targetScoreOf w1 ≤ w1.score then handleLevelComplete w1
    else
      let w2 :=
        if w1.level = 11 then
          let wA := if w1.boss.active = false then spawnBossSigils winW winH w1 else w1
          let wB := rotateSigils winW winH wA
          if bossSpawnRate wB.biomeIndex < ((timestamp - wB.lastSpawnTime : ℤ) : ℚ) then
            { (spawnEnemy timestamp winW winH r wB) with lastSpawnTime := timestamp }
          else wB
        else
          if normalSpawnRate w1.level w1.biomeIndex <
              ((timestamp - w1.lastSpawnTime : ℤ) : ℚ) then
            { (spawnEnemy timestamp winW winH r w1) with lastSpawnTime := timestamp }
          else w1
      particleStep (moveCollide winW winH w2)

/-- The initialization effect that runs on every transition into the PLAYING
state (second GameCanvas component, lines 1250-1261): registries cleared,
boss flag cleared, pause cleared, health restored, score zeroed and the spawn
clock stamped.  The resetCount instrumentation records that the reset ran. -/
def initEffect (t : ℤ) (w : World) : World :=
  { w with
    enemies := []
    particles := []
    boss := { w.boss with active := false }
    isPaused := false
    health := maxHealth
    score := 0
    lastSpawnTime := t
    resetCount := w.resetCount + 1 }

/-- handleInputStart: a stroke begins only while playing and unpaused. -/
def inputStart (x y : ℝ) (w : World) : World :=
  if w.gs = .PLAYING ∧ w.isPaused = false then
    { w with
      isDrawing := true
      drawingPts := [⟨x, y⟩] }
  else w

/-- handleInputMove: points further than 5 from the last are appended. -/
def inputMove (x y : ℝ) (w : World) : World :=
  if w.isDrawing = true ∧ w.gs = .PLAYING ∧ w.isPaused = false then
    if 5 < getDistance (endPt w.drawingPts) ⟨x, y⟩ then
      { w with drawingPts := w.drawingPts ++ [⟨x, y⟩] }
    else w
  else w

/-- handleInputEnd: if a stroke was active, resolve it through checkGesture
and clear the buffer. -/
def inputEnd (w : World) : World :=
  if w.isDrawing = true then
    { (checkGesture w.drawingPts w) with
      isDrawing := false
      drawingPts := [] }
  else w

/-- One React event hitting the system. -/
inductive Ev
  | setGS (g : GameStateF) (t : ℤ)
  | frame (timestamp now : ℤ) (winW winH : ℝ) (r : SpawnRnd)
  | pointerStart (x y : ℝ)
  | pointerMove (x y : ℝ)
  | pointerEnd
  | click (sk : SkillId) (now : ℤ) (winW winH : ℝ)

/-- The step function.  setGameState with an unchanged value re-renders
nothing (React bails out), otherwise the state changes and, when the new
state is PLAYING, the initialization effect fires once. -/
def step : Ev → World → World
  | .setGS g t, w =>
    if g = w.gs then w
    else
      let w1 := { w with gs := g }
      if g = .PLAYING then initEffect t w1 else w1
  | .frame ts now winW winH r, w => tick ts now winW winH r w
  | .pointerStart x y, w => inputStart x y w
  | .pointerMove x y, w => inputMove x y w
  | .pointerEnd, w => inputEnd w
  | .click sk now winW winH, w => clickSkill sk now winW winH w

/-- Running a list of events. -/
def run : List Ev → World → World
  | [], w => w
  | e :: es, w => run es (step e w)

/-- The initial world: App mounts in the MENU state with score 0 and
GameCanvas mounts with full health, empty registries, inactive skills and
the three cooldown records at their configured totals. -/
def w0 : World :=
  { gs := .MENU
    biomeIndex := 0
    level := 1
    totalCleared := 0
    score := 0
    health := maxHealth
    enemies := []
    particles := []
    lastSpawnTime := 0
    isPaused := false
    skills := ⟨false, 0, false, 0, 1.0⟩
    cooldowns := ⟨⟨0, 15000⟩, ⟨0, 20000⟩, ⟨0, 25000⟩⟩
    boss := ⟨false, 0, 0⟩
    isDrawing := false
    drawingPts := []
    resetCount := 0
    bossCompletions := 0 }

/-- Worlds reachable from the mount state by any event sequence. -/
inductive Reachable : World → Prop
  | init : Reachable w0
  | next {w : World} (e : Ev) : Reachable w → Reachable (step e w)

/-- Number of live boss sigils in a registry. -/
def sigilCount (es : List Enemy) : ℤ :=
  ((es.filter fun e => e.isBossSigil).length : ℤ)

/-- Number of events in a trace that switch the game state into PLAYING
(following the evolving world). -/
def entersPlaying : List Ev → World → ℕ
  | [], _ => 0
  | e :: es, w =>
    (match e with
      | .setGS g _ => if g = .PLAYING ∧ w.gs ≠ .PLAYING then 1 else 0
      | _ => 0) + entersPlaying es (step e w)

/-- The combined reachability invariant used below: the sigil counter is
nonnegative and dominates the number of live sigils, sigils only live on the
boss level, and the cooldown totals keep their configured values. -/
def Inv (w : World) : Prop :=
  0 ≤ w.boss.currentSigils ∧
  sigilCount w.enemies ≤ w.boss.currentSigils ∧
  (w.level ≠ 11 → sigilCount w.enemies = 0) ∧
  w.cooldowns.shield.total = 15000 ∧
  w.cooldowns.hourglass.total = 20000 ∧
  w.cooldowns.bomb.total = 25000

/-- A regular enemy sitting exactly on the center of a 100 x 100 canvas,
used as concrete collision input. -/
def centerEnemy (i : ℕ) : Enemy :=
  { id := .rnd i
    x := 50
    y := 50
    speed := 1
    symbol := .HORIZONTAL
    color := .white_FFFFFF
    radius := 22
    spawnTime := 0
    isBossSigil := false
    isProjectile := false }

/-- A fixed random draw for frames whose spawn branch is not taken. -/
def dummyRnd : SpawnRnd := ⟨0, 0, 0, 0, 0⟩

/-- Concrete world refuting tick-preservation of nonnegative health: playing,
health 1, two regular enemies on the center. -/
def cexWorld : World :=
  { w0 with
    gs := .PLAYING
    health := 1
    enemies := [centerEnemy 0, centerEnemy 1] }

/-- Concrete world with full health and one enemy on the center. -/
def hitWorld : World :=
  { w0 with
    gs := .PLAYING
    enemies := [centerEnemy 0] }

/-- Concrete world that has already reached the level-1 target score. -/
def doneWorld : World :=
  { w0 with
    gs := .PLAYING
    score := 30 }

end Game

/-! ### Concrete strokes named by the testable properties -/

/-- n points evenly spaced along the segment from (0,0) to (200,0). -/
def hLine (n : ℕ) : List Point :=
  (List.range n).map fun (k : ℕ) => (⟨200 * (k : ℝ) / ((n : ℝ) - 1), 0⟩ : Point)

/-- n points evenly spaced along the segment from (0,0) to (0,200). -/
def vLine (n : ℕ) : List Point :=
  (List.range n).map fun (k : ℕ) => (⟨0, 200 * (k : ℝ) / ((n : ℝ) - 1)⟩ : Point)

/-- Angle of the k-th of n points evenly spaced around a circle. -/
def circAngle (n k : ℕ) : ℝ := 2 * π * (k : ℝ) / (n : ℝ)

/-- The k-th of n points evenly spaced around the origin-centered circle of
radius 50. -/
def circPt (n k : ℕ) : Point :=
  ⟨50 * Real.cos (circAngle n k), 50 * Real.sin (circAngle n k)⟩

/-- n points evenly spaced around a circle of radius 50. -/
def circlePts (n : ℕ) : List Point := (List.range n).map (circPt n)

/-! ## Theorems -/

/-! ### Generic helpers about the fold-based stroke metrics -/

theorem foldl_min_le_init (f : Point → ℝ) (l : List Point) :
    ∀ a : ℝ, l.foldl (fun m p => min m (f p)) a ≤ a := by
  induction l with
  | nil => intro a; simp
  | cons p t ih =>
    intro a
    simpa using le_trans (ih (min a (f p))) (min_le_left _ _)

theorem foldl_min_le_mem (f : Point → ℝ) (l : List Point) {p : Point} (hp : p ∈ l) :
    ∀ a : ℝ, l.foldl (fun m p => min m (f p)) a ≤ f p := by
  induction l with
  | nil => cases hp
  | cons q t ih =>
    intro a
    rcases List.mem_cons.mp hp with h | h
    · subst h
      simpa using le_trans (foldl_min_le_init f t (min a (f p))) (min_le_right _ _)
    · simpa using ih h (min a (f q))

theorem le_foldl_min (f : Point → ℝ) (l : List Point) {b : ℝ}
    (h : ∀ p ∈ l, b ≤ f p) : ∀ a : ℝ, b ≤ a → b ≤ l.foldl (fun m p => min m (f p)) a := by
  induction l with
  | nil => intro a ha; simpa using ha
  | cons q t ih =>
    intro a ha
    have hq : b ≤ f q := h q (List.mem_cons_self q t)
    have ht : ∀ p ∈ t, b ≤ f p := fun p hp => h p (List.mem_cons_of_mem q hp)
    simpa using ih ht (min a (f q)) (le_min ha hq)

theorem init_le_foldl_max (f : Point → ℝ) (l : List Point) :
    ∀ a : ℝ, a ≤ l.foldl (fun m p => max m (f p)) a := by
  induction l with
  | nil => intro a; simp
  | cons p t ih =>
    intro a
    simpa using le_trans (le_max_left a (f p)) (ih (max a (f p)))

theorem mem_le_foldl_max (f : Point → ℝ) (l : List Point) {p : Point} (hp : p ∈ l) :
    ∀ a : ℝ, f p ≤ l.foldl (fun m p => max m (f p)) a := by
  induction l with
  | nil => cases hp
  | cons q t ih =>
    intro a
    rcases List.mem_cons.mp hp with h | h
    · subst h
      simpa using le_trans (le_max_right a (f p)) (init_le_foldl_max f t (max a (f p)))
    · simpa using ih h (max a (f q))

theorem foldl_max_le (f : Point → ℝ) (l : List Point) {b : ℝ}
    (h : ∀ p ∈ l, f p ≤ b) : ∀ a : ℝ, a ≤ b → l.foldl (fun m p => max m (f p)) a ≤ b := by
  induction l with
  | nil => intro a ha; simpa using ha
  | cons q t ih =>
    intro a ha
    have hq : f q ≤ b := h q (List.mem_cons_self q t)
    have ht : ∀ p ∈ t, f p ≤ b := fun p hp => h p (List.mem_cons_of_mem q hp)
    simpa using ih ht (max a (f q)) (max_le ha hq)

theorem headI_mem {l : List Point} (hl : l ≠ []) : l.headI ∈ l := by
  cases l with
  | nil => exact absurd rfl hl
  | cons p t => exact List.mem_cons_self p t

theorem ne_nil_of_length_pos {l : List Point} (h : 0 < l.length) : l ≠ [] := by
  intro he
  subst he
  simp at h

theorem foldMinOf_le (f : Point → ℝ) {pts : List Point} {p : Point} (hp : p ∈ pts) :
    foldMinOf f pts ≤ f p :=
  foldl_min_le_mem f pts hp _

theorem le_foldMinOf (f : Point → ℝ) {pts : List Point} {b : ℝ} (hne : pts ≠ [])
    (h : ∀ p ∈ pts, b ≤ f p) : b ≤ foldMinOf f pts :=
  le_foldl_min f pts h _ (h _ (headI_mem hne))

theorem le_foldMaxOf (f : Point → ℝ) {pts : List Point} {p : Point} (hp : p ∈ pts) :
    f p ≤ foldMaxOf f pts :=
  mem_le_foldl_max f pts hp _

theorem foldMaxOf_le (f : Point → ℝ) {pts : List Point} {b : ℝ} (hne : pts ≠ [])
    (h : ∀ p ∈ pts, f p ≤ b) : foldMaxOf f pts ≤ b :=
  foldl_max_le f pts h _ (h _ (headI_mem hne))

theorem foldMinOf_const (f : Point → ℝ) {pts : List Point} {c : ℝ} (hne : pts ≠ [])
    (h : ∀ p ∈ pts, f p = c) : foldMinOf f pts = c :=
  le_antisymm (le_of_le_of_eq (foldMinOf_le f (headI_mem hne)) (h _ (headI_mem hne)))
    (le_foldMinOf f hne fun p hp => (h p hp).ge)

theorem foldMaxOf_const (f : Point → ℝ) {pts : List Point} {c : ℝ} (hne : pts ≠ [])
    (h : ∀ p ∈ pts, f p = c) : foldMaxOf f pts = c :=
  le_antisymm (foldMaxOf_le f hne fun p hp => (h p hp).le)
    (le_of_eq_of_le (h _ (headI_mem hne)).symm (le_foldMaxOf f (headI_mem hne)))

theorem getDistance_self (p : Point) : getDistance p p = 0 := by
  simp [getDistance]

theorem getDistance_nonneg (p q : Point) : 0 ≤ getDistance p q :=
  Real.sqrt_nonneg _

theorem safeDenom_ne_zero (x : ℝ) : safeDenom x ≠ 0 := by
  unfold safeDenom
  split
  · norm_num
  · assumption

theorem safeDenom_of_ne {x : ℝ} (hx : x ≠ 0) : safeDenom x = x := by
  simp [safeDenom, hx]

/-! ### Degenerate strokes: all points identical -/

theorem getPathLength_replicate (n : ℕ) (p : Point) :
    getPathLength (List.replicate n p) = 0 := by
  induction n with
  | zero => simp [getPathLength]
  | succ m ih =>
    cases m with
    | zero => simp [getPathLength]
    | succ l =>
      rw [List.replicate_succ, List.replicate_succ]
      rw [show (getPathLength (p :: p :: List.replicate l p) =
        getDistance p p + getPathLength (p :: List.replicate l p)) from rfl]
      rw [getDistance_self, ← List.replicate_succ]
      rw [List.replicate_succ] at ih
      simpa using ih

theorem absDxSum_replicate (n : ℕ) (p : Point) :
    absDxSum (List.replicate n p) = 0 := by
  induction n with
  | zero => simp [absDxSum]
  | succ m ih =>
    cases m with
    | zero => simp [absDxSum]
    | succ l =>
      rw [List.replicate_succ, List.replicate_succ]
      rw [show (absDxSum (p :: p :: List.replicate l p) =
        |p.x - p.x| + absDxSum (p :: List.replicate l p)) from rfl]
      rw [List.replicate_succ] at ih
      simpa using ih

theorem headI_replicate {n : ℕ} (hn : n ≠ 0) (p : Point) :
    (List.replicate n p).headI = p := by
  cases n with
  | zero => exact absurd rfl hn
  | succ m => rw [List.replicate_succ]; rfl

theorem endPt_replicate {n : ℕ} (hn : n ≠ 0) (p : Point) :
    endPt (List.replicate n p) = p := by
  have h1 : n - 1 < n := by omega
  simp [endPt, List.getD_eq_getElem?_getD, List.getElem?_replicate, h1]

theorem replicate_ne_nil {n : ℕ} (hn : n ≠ 0) (p : Point) :
    List.replicate n p ≠ [] := by
  cases n with
  | zero => exact absurd rfl hn
  | succ m => simp

theorem minXof_replicate {n : ℕ} (hn : n ≠ 0) (p : Point) :
    minXof (List.replicate n p) = p.x :=
  foldMinOf_const _ (replicate_ne_nil hn p) fun q hq => by
    rw [List.eq_of_mem_replicate hq]

theorem maxXof_replicate {n : ℕ} (hn : n ≠ 0) (p : Point) :
    maxXof (List.replicate n p) = p.x :=
  foldMaxOf_const _ (replicate_ne_nil hn p) fun q hq => by
    rw [List.eq_of_mem_replicate hq]

theorem minYof_replicate {n : ℕ} (hn : n ≠ 0) (p : Point) :
    minYof (List.replicate n p) = p.y :=
  foldMinOf_const _ (replicate_ne_nil hn p) fun q hq => by
    rw [List.eq_of_mem_replicate hq]

theorem maxYof_replicate {n : ℕ} (hn : n ≠ 0) (p : Point) :
    maxYof (List.replicate n p) = p.y :=
  foldMaxOf_const _ (replicate_ne_nil hn p) fun q hq => by
    rw [List.eq_of_mem_replicate hq]

theorem intersectionCount_replicate (n : ℕ) (p : Point) :
    Gesture.intersectionCount (List.replicate n p) = 0 := by
  unfold Gesture.intersectionCount
  rw [getPathLength_replicate]
  norm_num

theorem recognizeGesture_replicate (n : ℕ) (p : Point) :
    Gesture.recognizeGesture (List.replicate n p) = none := by
  by_cases hn : n < 10
  · unfold Gesture.recognizeGesture
    rw [if_pos (by simpa using hn)]
  · push_neg at hn
    have h0 : n ≠ 0 := by omega
    unfold Gesture.recognizeGesture
    rw [if_neg (by simp; omega)]
    simp only [headI_replicate h0, endPt_replicate h0, getPathLength_replicate,
      minXof_replicate h0, maxXof_replicate h0, minYof_replicate h0,
      maxYof_replicate h0, intersectionCount_replicate, getDistance_self]
    norm_num

/-- Claim C9: a stroke whose points are all identical returns no-match from
the classifier of src/utils/gesture.ts regardless of the point count, and
every guarded denominator of the classifier metrics (the height behind the
aspect ratio, the path length behind the linearity, the width behind the
horizontal travel ratio) is replaced by a provably nonzero value, so every
ratio is well defined. -/
theorem claim9_degenerate_strokes :
    (∀ (n : ℕ) (p : Point), Gesture.recognizeGesture (List.replicate n p) = none) ∧
    (∀ pts : List Point,
      safeDenom (heightOf pts) ≠ 0 ∧
      safeDenom (getPathLength pts) ≠ 0 ∧
      safeDenom (widthOf pts) ≠ 0) :=
  ⟨recognizeGesture_replicate, fun _ =>
    ⟨safeDenom_ne_zero _, safeDenom_ne_zero _, safeDenom_ne_zero _⟩⟩

/-! ### Strokes indexed by List.range -/

theorem headI_range_map (f : ℕ → Point) {n : ℕ} (hn : 0 < n) :
    ((List.range n).map f).headI = f 0 := by
  cases n with
  | zero => omega
  | succ m =>
    rw [List.range_succ_eq_map]
    rfl

theorem endPt_range_map (f : ℕ → Point) {n : ℕ} (hn : 0 < n) :
    endPt ((List.range n).map f) = f (n - 1) := by
  have hlen : ((List.range n).map f).length = n := by simp
  have h1 : n - 1 < n := by omega
  unfold endPt
  rw [hlen, List.getD_eq_getElem?_getD, List.getElem?_map, List.getElem?_range h1]
  rfl

theorem range_map_ne_nil (f : ℕ → Point) {n : ℕ} (hn : 0 < n) :
    (List.range n).map f ≠ [] :=
  ne_nil_of_length_pos (by simpa using hn)

theorem endPt_cons_cons (p q : Point) (t : List Point) :
    endPt (p :: q :: t) = endPt (q :: t) := by
  unfold endPt
  simp [List.getD_eq_getElem?_getD]

theorem getPathLength_append_singleton :
    ∀ (l : List Point), l ≠ [] → ∀ q : Point,
      getPathLength (l ++ [q]) = getPathLength l + getDistance (endPt l) q := by
  intro l
  induction l with
  | nil => intro h; exact absurd rfl h
  | cons p t ih =>
    intro _ q
    cases t with
    | nil =>
      show getPathLength [p, q] = getPathLength [p] + getDistance (endPt [p]) q
      rw [show getPathLength [p, q] = getDistance p q + getPathLength [q] from rfl]
      rw [show getPathLength [q] = 0 from rfl, show getPathLength [p] = 0 from rfl]
      rw [show endPt [p] = p from rfl]
      ring
    | cons r s =>
      have step : (p :: r :: s) ++ [q] = p :: ((r :: s) ++ [q]) := rfl
      rw [step]
      have expand : getPathLength (p :: ((r :: s) ++ [q])) =
          getDistance p r + getPathLength ((r :: s) ++ [q]) := rfl
      rw [expand, ih (by simp) q, endPt_cons_cons]
      rw [show getPathLength (p :: r :: s) =
        getDistance p r + getPathLength (r :: s) from rfl]
      ring

theorem getPathLength_range_map (f : ℕ → Point) :
    ∀ n : ℕ, getPathLength ((List.range (n + 1)).map f) =
      ∑ k ∈ Finset.range n, getDistance (f k) (f (k + 1)) := by
  intro n
  induction n with
  | zero => simp [getPathLength]
  | succ m ih =>
    rw [List.range_succ, List.map_append]
    simp only [List.map_cons, List.map_nil]
    rw [getPathLength_append_singleton _ (range_map_ne_nil f (by omega)) _]
    rw [endPt_range_map f (by omega)]
    simp only [Nat.add_sub_cancel]
    rw [ih, Finset.sum_range_succ]

theorem getPathLength_const_step (f : ℕ → Point) (n : ℕ) (c : ℝ)
    (h : ∀ k < n, getDistance (f k) (f (k + 1)) = c) :
    getPathLength ((List.range (n + 1)).map f) = n * c := by
  rw [getPathLength_range_map f n]
  rw [Finset.sum_congr rfl fun k hk => h k (Finset.mem_range.mp hk)]
  simp [mul_comm]

theorem getD_mem_of_lt {pts : List Point} {i : ℕ} (h : i < pts.length) :
    pts.getD i default ∈ pts := by
  rw [List.getD_eq_getElem?_getD, List.getElem?_eq_getElem h]
  exact List.getElem_mem h

/-- Collinear strokes on a horizontal line never report a self
intersection. -/
theorem intersectionCount_of_const_y {pts : List Point} {c : ℝ}
    (h : ∀ p ∈ pts, p.y = c) : Gesture.intersectionCount pts = 0 := by
  unfold Gesture.intersectionCount Gesture.intersectPairs
  split
  · rw [Finset.card_eq_zero, Finset.filter_eq_empty_iff]
    rintro ⟨i, j⟩ hij
    rintro ⟨-, -, -, hi3, hj3, hint⟩
    have hy : ∀ k, k < pts.length → (pts.getD k default).y = c := fun k hk =>
      h _ (getD_mem_of_lt hk)
    have c1 : ¬ Gesture.ccw (pts.getD i default) (pts.getD j default)
        (pts.getD (j + 2) default) := by
      unfold Gesture.ccw
      rw [hy i (by omega), hy j (by omega), hy (j + 2) (by omega)]
      simp
    have c2 : ¬ Gesture.ccw (pts.getD (i + 2) default) (pts.getD j default)
        (pts.getD (j + 2) default) := by
      unfold Gesture.ccw
      rw [hy (i + 2) (by omega), hy j (by omega), hy (j + 2) (by omega)]
      simp
    exact hint.1 (iff_of_false c1 c2)
  · rfl

/-- Collinear strokes on a vertical line never report a self
intersection. -/
theorem intersectionCount_of_const_x {pts : List Point} {c : ℝ}
    (h : ∀ p ∈ pts, p.x = c) : Gesture.intersectionCount pts = 0 := by
  unfold Gesture.intersectionCount Gesture.intersectPairs
  split
  · rw [Finset.card_eq_zero, Finset.filter_eq_empty_iff]
    rintro ⟨i, j⟩ hij
    rintro ⟨-, -, -, hi3, hj3, hint⟩
    have hx : ∀ k, k < pts.length → (pts.getD k default).x = c := fun k hk =>
      h _ (getD_mem_of_lt hk)
    have c1 : ¬ Gesture.ccw (pts.getD i default) (pts.getD j default)
        (pts.getD (j + 2) default) := by
      unfold Gesture.ccw
      rw [hx i (by omega), hx j (by omega), hx (j + 2) (by omega)]
      simp
    have c2 : ¬ Gesture.ccw (pts.getD (i + 2) default) (pts.getD j default)
        (pts.getD (j + 2) default) := by
      unfold Gesture.ccw
      rw [hx (i + 2) (by omega), hx j (by omega), hx (j + 2) (by omega)]
      simp
    exact hint.1 (iff_of_false c1 c2)
  · rfl

/-! ### The evenly spaced horizontal and vertical test strokes -/

theorem hLine_length (n : ℕ) : (hLine n).length = n := by simp [hLine]

theorem vLine_length (n : ℕ) : (vLine n).length = n := by simp [vLine]

theorem hLine_mem_y {n : ℕ} {p : Point} (hp : p ∈ hLine n) : p.y = 0 := by
  unfold hLine at hp
  obtain ⟨k, -, rfl⟩ := List.mem_map.mp hp
  rfl

theorem vLine_mem_x {n : ℕ} {p : Point} (hp : p ∈ vLine n) : p.x = 0 := by
  unfold vLine at hp
  obtain ⟨k, -, rfl⟩ := List.mem_map.mp hp
  rfl

theorem hLine_mem_x {n : ℕ} (hn : 2 ≤ n) {p : Point} (hp : p ∈ hLine n) :
    0 ≤ p.x ∧ p.x ≤ 200 := by
  unfold hLine at hp
  obtain ⟨k, hk, rfl⟩ := List.mem_map.mp hp
  rw [List.mem_range] at hk
  have hd : (0 : ℝ) < (n : ℝ) - 1 := by
    have : (2 : ℝ) ≤ (n : ℝ) := by exact_mod_cast hn
    linarith
  constructor
  · positivity
  · rw [div_le_iff₀ hd]
    have : (k : ℝ) ≤ (n : ℝ) - 1 := by
      have : (k : ℝ) + 1 ≤ (n : ℝ) := by exact_mod_cast hk
      linarith
    nlinarith

theorem hLine_headI {n : ℕ} (hn : 0 < n) : (hLine n).headI = (⟨0, 0⟩ : Point) := by
  unfold hLine
  rw [headI_range_map _ hn]
  simp

theorem hLine_endPt {n : ℕ} (hn : 2 ≤ n) : endPt (hLine n) = (⟨200, 0⟩ : Point) := by
  unfold hLine
  rw [endPt_range_map _ (by omega)]
  have hd : ((n - 1 : ℕ) : ℝ) = (n : ℝ) - 1 := by
    rw [Nat.cast_sub (by omega)]
    simp
  have hne : (n : ℝ) - 1 ≠ 0 := by
    have : (2 : ℝ) ≤ (n : ℝ) := by exact_mod_cast hn
    intro h
    linarith
  simp only [hd]
  congr 1
  field_simp

theorem vLine_headI {n : ℕ} (hn : 0 < n) : (vLine n).headI = (⟨0, 0⟩ : Point) := by
  unfold vLine
  rw [headI_range_map _ hn]
  simp

theorem vLine_endPt {n : ℕ} (hn : 2 ≤ n) : endPt (vLine n) = (⟨0, 200⟩ : Point) := by
  unfold vLine
  rw [endPt_range_map _ (by omega)]
  have hd : ((n - 1 : ℕ) : ℝ) = (n : ℝ) - 1 := by
    rw [Nat.cast_sub (by omega)]
    simp
  have hne : (n : ℝ) - 1 ≠ 0 := by
    have : (2 : ℝ) ≤ (n : ℝ) := by exact_mod_cast hn
    intro h
    linarith
  simp only [hd]
  congr 1
  field_simp

theorem getDistance_horiz (a b y : ℝ) : getDistance ⟨a, y⟩ ⟨b, y⟩ = |b - a| := by
  unfold getDistance
  rw [show ((⟨b, y⟩ : Point).y - (⟨a, y⟩ : Point).y) = 0 from by simp]
  rw [show ((⟨b, y⟩ : Point).x - (⟨a, y⟩ : Point).x) = b - a from by simp]
  rw [show (0 : ℝ) ^ 2 = 0 from by norm_num, add_zero]
  exact Real.sqrt_sq_eq_abs _

theorem getDistance_vert (x a b : ℝ) : getDistance ⟨x, a⟩ ⟨x, b⟩ = |b - a| := by
  unfold getDistance
  rw [show ((⟨x, b⟩ : Point).x - (⟨x, a⟩ : Point).x) = 0 from by simp]
  rw [show ((⟨x, b⟩ : Point).y - (⟨x, a⟩ : Point).y) = b - a from by simp]
  rw [show (0 : ℝ) ^ 2 = 0 from by norm_num, zero_add]
  exact Real.sqrt_sq_eq_abs _

theorem hLine_pathLength {n : ℕ} (hn : 2 ≤ n) : getPathLength (hLine n) = 200 := by
  obtain ⟨m, rfl⟩ : ∃ m, n = m + 1 := ⟨n - 1, by omega⟩
  have hm : 1 ≤ m := by omega
  have hd : (0 : ℝ) < (m : ℝ) := by exact_mod_cast hm
  have hcast : ((m + 1 : ℕ) : ℝ) - 1 = (m : ℝ) := by push_cast; ring
  unfold hLine
  rw [getPathLength_const_step _ m (200 / (m : ℝ))]
  · field_simp
  · intro k hk
    rw [getDistance_horiz, hcast]
    have hdiff : 200 * (((k + 1 : ℕ)) : ℝ) / (m : ℝ) - 200 * ((k : ℕ) : ℝ) / (m : ℝ) =
        200 / (m : ℝ) := by
      push_cast
      field_simp
      ring
    rw [hdiff, abs_of_pos (by positivity)]

theorem vLine_pathLength {n : ℕ} (hn : 2 ≤ n) : getPathLength (vLine n) = 200 := by
  obtain ⟨m, rfl⟩ : ∃ m, n = m + 1 := ⟨n - 1, by omega⟩
  have hm : 1 ≤ m := by omega
  have hd : (0 : ℝ) < (m : ℝ) := by exact_mod_cast hm
  have hcast : ((m + 1 : ℕ) : ℝ) - 1 = (m : ℝ) := by push_cast; ring
  unfold vLine
  rw [getPathLength_const_step _ m (200 / (m : ℝ))]
  · field_simp
  · intro k hk
    rw [getDistance_vert, hcast]
    have hdiff : 200 * (((k + 1 : ℕ)) : ℝ) / (m : ℝ) - 200 * ((k : ℕ) : ℝ) / (m : ℝ) =
        200 / (m : ℝ) := by
      push_cast
      field_simp
      ring
    rw [hdiff, abs_of_pos (by positivity)]

theorem hLine_ne_nil {n : ℕ} (hn : 0 < n) : hLine n ≠ [] :=
  ne_nil_of_length_pos (by rw [hLine_length]; omega)

theorem vLine_ne_nil {n : ℕ} (hn : 0 < n) : vLine n ≠ [] :=
  ne_nil_of_length_pos (by rw [vLine_length]; omega)

theorem hLine_minX {n : ℕ} (hn : 2 ≤ n) : minXof (hLine n) = 0 := by
  have hne : hLine n ≠ [] := hLine_ne_nil (by omega)
  refine le_antisymm ?_ ?_
  · have h0 : (⟨0, 0⟩ : Point) ∈ hLine n := by
      rw [← hLine_headI (by omega : 0 < n)]
      exact headI_mem hne
    simpa using foldMinOf_le (fun p => p.x) h0
  · exact le_foldMinOf _ hne fun p hp => (hLine_mem_x hn hp).1

theorem hLine_maxX {n : ℕ} (hn : 2 ≤ n) : maxXof (hLine n) = 200 := by
  have hne : hLine n ≠ [] := hLine_ne_nil (by omega)
  refine le_antisymm ?_ ?_
  · exact foldMaxOf_le _ hne fun p hp => (hLine_mem_x hn hp).2
  · have h200 : (⟨200, 0⟩ : Point) ∈ hLine n := by
      rw [← hLine_endPt hn]
      unfold endPt
      exact getD_mem_of_lt (by rw [hLine_length]; omega)
    simpa using le_foldMaxOf (fun p => p.x) h200

theorem hLine_minY {n : ℕ} (hn : 2 ≤ n) : minYof (hLine n) = 0 :=
  foldMinOf_const _ (hLine_ne_nil (by omega)) fun p hp => hLine_mem_y hp

theorem hLine_maxY {n : ℕ} (hn : 2 ≤ n) : maxYof (hLine n) = 0 :=
  foldMaxOf_const _ (hLine_ne_nil (by omega)) fun p hp => hLine_mem_y hp

theorem vLine_mem_y {n : ℕ} (hn : 2 ≤ n) {p : Point} (hp : p ∈ vLine n) :
    0 ≤ p.y ∧ p.y ≤ 200 := by
  unfold vLine at hp
  obtain ⟨k, hk, rfl⟩ := List.mem_map.mp hp
  rw [List.mem_range] at hk
  have hd : (0 : ℝ) < (n : ℝ) - 1 := by
    have : (2 : ℝ) ≤ (n : ℝ) := by exact_mod_cast hn
    linarith
  constructor
  · positivity
  · rw [div_le_iff₀ hd]
    have : (k : ℝ) ≤ (n : ℝ) - 1 := by
      have : (k : ℝ) + 1 ≤ (n : ℝ) := by exact_mod_cast hk
      linarith
    nlinarith

theorem vLine_minY {n : ℕ} (hn : 2 ≤ n) : minYof (vLine n) = 0 := by
  have hne : vLine n ≠ [] := vLine_ne_nil (by omega)
  refine le_antisymm ?_ ?_
  · have h0 : (⟨0, 0⟩ : Point) ∈ vLine n := by
      rw [← vLine_headI (by omega : 0 < n)]
      exact headI_mem hne
    simpa using foldMinOf_le (fun p => p.y) h0
  · exact le_foldMinOf _ hne fun p hp => (vLine_mem_y hn hp).1

theorem vLine_maxY {n : ℕ} (hn : 2 ≤ n) : maxYof (vLine n) = 200 := by
  have hne : vLine n ≠ [] := vLine_ne_nil (by omega)
  refine le_antisymm ?_ ?_
  · exact foldMaxOf_le _ hne fun p hp => (vLine_mem_y hn hp).2
  · have h200 : (⟨0, 200⟩ : Point) ∈ vLine n := by
      rw [← vLine_endPt hn]
      unfold endPt
      exact getD_mem_of_lt (by rw [vLine_length]; omega)
    simpa using le_foldMaxOf (fun p => p.y) h200

theorem vLine_minX {n : ℕ} (hn : 2 ≤ n) : minXof (vLine n) = 0 :=
  foldMinOf_const _ (vLine_ne_nil (by omega)) fun p hp => vLine_mem_x hp

theorem vLine_maxX {n : ℕ} (hn : 2 ≤ n) : maxXof (vLine n) = 0 :=
  foldMaxOf_const _ (vLine_ne_nil (by omega)) fun p hp => vLine_mem_x hp

/-! ### Classifying the two line strokes -/

theorem recognizeGesture_hLine {n : ℕ} (hn : 10 ≤ n) :
    Gesture.recognizeGesture (hLine n) = some SpellType.HORIZONTAL := by
  have h2 : 2 ≤ n := by omega
  have hlen : ¬ (hLine n).length < 10 := by rw [hLine_length]; omega
  have hic : Gesture.intersectionCount (hLine n) = 0 :=
    intersectionCount_of_const_y fun p hp => hLine_mem_y hp
  have hdist : getDistance (⟨0, 0⟩ : Point) (⟨200, 0⟩ : Point) = 200 := by
    rw [getDistance_horiz]
    norm_num
  unfold Gesture.recognizeGesture
  rw [if_neg hlen]
  simp only [hLine_headI (show 0 < n by omega), hLine_endPt h2, hLine_pathLength h2,
    hLine_minX h2, hLine_maxX h2, hLine_minY h2, hLine_maxY h2, hic, hdist]
  norm_num [safeDenom]

theorem recognizeGesture_vLine {n : ℕ} (hn : 10 ≤ n) :
    Gesture.recognizeGesture (vLine n) = some SpellType.VERTICAL := by
  have h2 : 2 ≤ n := by omega
  have hlen : ¬ (vLine n).length < 10 := by rw [vLine_length]; omega
  have hic : Gesture.intersectionCount (vLine n) = 0 :=
    intersectionCount_of_const_x fun p hp => vLine_mem_x hp
  have hdist : getDistance (⟨0, 0⟩ : Point) (⟨0, 200⟩ : Point) = 200 := by
    rw [getDistance_vert]
    norm_num
  unfold Gesture.recognizeGesture
  rw [if_neg hlen]
  simp only [vLine_headI (show 0 < n by omega), vLine_endPt h2, vLine_pathLength h2,
    vLine_minX h2, vLine_maxX h2, vLine_minY h2, vLine_maxY h2, hic, hdist]
  norm_num [safeDenom]

/-- The part_001 classifier also maps the canonical horizontal stroke to the
horizontal symbol (used to exhibit concrete recognized strokes for the
resolution claims). -/
theorem recognizeGestureV1_hLine {n : ℕ} (hn : 8 ≤ n) :
    GestureV1.recognizeGesture (hLine n) = some SpellType.HORIZONTAL := by
  have h2 : 2 ≤ n := by omega
  have hlen : ¬ (hLine n).length < 8 := by rw [hLine_length]; omega
  have hdist : getDistance (⟨0, 0⟩ : Point) (⟨200, 0⟩ : Point) = 200 := by
    rw [getDistance_horiz]
    norm_num
  unfold GestureV1.recognizeGesture GestureV1.afterClosed
  rw [if_neg hlen]
  simp only [hLine_headI (show 0 < n by omega), hLine_endPt h2, hLine_pathLength h2,
    hLine_minX h2, hLine_maxX h2, hLine_minY h2, hLine_maxY h2, hdist, widthOf,
    heightOf]
  norm_num [safeDenom]

/-- Claim C8: at least 10 evenly spaced points along the segment from (0,0)
to (200,0) classify as the horizontal-line symbol, and the analogous stroke
along (0,0) to (0,200) classifies as the vertical-line symbol, under the
classifier of src/utils/gesture.ts. -/
theorem claim8_axis_aligned_lines (n : ℕ) (hn : 10 ≤ n) :
    Gesture.recognizeGesture (hLine n) = some SpellType.HORIZONTAL ∧
    Gesture.recognizeGesture (vLine n) = some SpellType.VERTICAL :=
  ⟨recognizeGesture_hLine hn, recognizeGesture_vLine hn⟩

/-- Witness for C8 at the minimal stroke length 10. -/
theorem claim8_axis_aligned_lines_witness :
    Gesture.recognizeGesture (hLine 10) = some SpellType.HORIZONTAL ∧
    Gesture.recognizeGesture (vLine 10) = some SpellType.VERTICAL :=
  claim8_axis_aligned_lines 10 (by norm_num)

/-- A classified stroke passed the minimum-length guard of part_001. -/
theorem lengthGe_of_recognizedV1 {pts : List Point} {g : SpellType}
    (hg : GestureV1.recognizeGesture pts = some g) : 8 ≤ pts.length := by
  by_contra hl
  push_neg at hl
  unfold GestureV1.recognizeGesture at hg
  rw [if_pos hl] at hg
  cases hg

namespace Game

/-! ### Frame lemmas: which state components each operation can touch -/

@[simp] theorem addBurst_frame (x y : ℝ) (c : ColorT) (n : ℕ) (gl : Bool) (w : World) :
    (addBurst x y c n gl w).gs = w.gs ∧
    (addBurst x y c n gl w).score = w.score ∧
    (addBurst x y c n gl w).health = w.health ∧
    (addBurst x y c n gl w).enemies = w.enemies ∧
    (addBurst x y c n gl w).boss = w.boss ∧
    (addBurst x y c n gl w).cooldowns = w.cooldowns ∧
    (addBurst x y c n gl w).resetCount = w.resetCount ∧
    (addBurst x y c n gl w).bossCompletions = w.bossCompletions ∧
    (addBurst x y c n gl w).level = w.level := by
  unfold addBurst
  simp

theorem handleLevelComplete_frame (w : World) :
    (handleLevelComplete w).enemies = w.enemies ∧
    (handleLevelComplete w).particles = w.particles ∧
    (handleLevelComplete w).score = w.score ∧
    (handleLevelComplete w).health = w.health ∧
    (handleLevelComplete w).lastSpawnTime = w.lastSpawnTime ∧
    (handleLevelComplete w).cooldowns = w.cooldowns ∧
    (handleLevelComplete w).skills = w.skills ∧
    (handleLevelComplete w).boss = w.boss ∧
    (handleLevelComplete w).resetCount = w.resetCount ∧
    (handleLevelComplete w).bossCompletions = w.bossCompletions ∧
    (handleLevelComplete w).isPaused = w.isPaused ∧
    (handleLevelComplete w).gs = GameStateF.LEVEL_COMPLETE := by
  unfold handleLevelComplete
  repeat' split <;> simp

theorem expireSkills_frame (now : ℤ) (w : World) :
    (expireSkills now w).gs = w.gs ∧
    (expireSkills now w).score = w.score ∧
    (expireSkills now w).health = w.health ∧
    (expireSkills now w).enemies = w.enemies ∧
    (expireSkills now w).particles = w.particles ∧
    (expireSkills now w).boss = w.boss ∧
    (expireSkills now w).cooldowns = w.cooldowns ∧
    (expireSkills now w).resetCount = w.resetCount ∧
    (expireSkills now w).bossCompletions = w.bossCompletions ∧
    (expireSkills now w).level = w.level ∧
    (expireSkills now w).biomeIndex = w.biomeIndex ∧
    (expireSkills now w).lastSpawnTime = w.lastSpawnTime ∧
    (expireSkills now w).isPaused = w.isPaused := by
  unfold expireSkills
  simp

theorem spawnEnemy_frame (ts : ℤ) (winW winH : ℝ) (r : SpawnRnd) (w : World) :
    (spawnEnemy ts winW winH r w).gs = w.gs ∧
    (spawnEnemy ts winW winH r w).score = w.score ∧
    (spawnEnemy ts winW winH r w).health = w.health ∧
    (spawnEnemy ts winW winH r w).particles = w.particles ∧
    (spawnEnemy ts winW winH r w).boss = w.boss ∧
    (spawnEnemy ts winW winH r w).cooldowns = w.cooldowns ∧
    (spawnEnemy ts winW winH r w).resetCount = w.resetCount ∧
    (spawnEnemy ts winW winH r w).bossCompletions = w.bossCompletions ∧
    (spawnEnemy ts winW winH r w).level = w.level ∧
    (spawnEnemy ts winW winH r w).skills = w.skills := by
  unfold spawnEnemy
  repeat' split <;> simp

theorem spawnBossSigils_frame (winW winH : ℝ) (w : World) :
    (spawnBossSigils winW winH w).gs = w.gs ∧
    (spawnBossSigils winW winH w).score = w.score ∧
    (spawnBossSigils winW winH w).health = w.health ∧
    (spawnBossSigils winW winH w).particles = w.particles ∧
    (spawnBossSigils winW winH w).cooldowns = w.cooldowns ∧
    (spawnBossSigils winW winH w).resetCount = w.resetCount ∧
    (spawnBossSigils winW winH w).bossCompletions = w.bossCompletions ∧
    (spawnBossSigils winW winH w).level = w.level ∧
    (spawnBossSigils winW winH w).skills = w.skills ∧
    (spawnBossSigils winW winH w).lastSpawnTime = w.lastSpawnTime := by
  unfold spawnBossSigils
  simp

theorem rotateSigils_frame (winW winH : ℝ) (w : World) :
    (rotateSigils winW winH w).gs = w.gs ∧
    (rotateSigils winW winH w).score = w.score ∧
    (rotateSigils winW winH w).health = w.health ∧
    (rotateSigils winW winH w).particles = w.particles ∧
    (rotateSigils winW winH w).boss = w.boss ∧
    (rotateSigils winW winH w).cooldowns = w.cooldowns ∧
    (rotateSigils winW winH w).resetCount = w.resetCount ∧
    (rotateSigils winW winH w).bossCompletions = w.bossCompletions ∧
    (rotateSigils winW winH w).level = w.level ∧
    (rotateSigils winW winH w).skills = w.skills ∧
    (rotateSigils winW winH w).lastSpawnTime = w.lastSpawnTime := by
  unfold rotateSigils
  simp

theorem moveCollide_frame (winW winH : ℝ) (w : World) :
    (moveCollide winW winH w).score = w.score ∧
    (moveCollide winW winH w).boss = w.boss ∧
    (moveCollide winW winH w).cooldowns = w.cooldowns ∧
    (moveCollide winW winH w).resetCount = w.resetCount ∧
    (moveCollide winW winH w).bossCompletions = w.bossCompletions ∧
    (moveCollide winW winH w).level = w.level ∧
    (moveCollide winW winH w).skills = w.skills ∧
    (moveCollide winW winH w).lastSpawnTime = w.lastSpawnTime := by
  unfold moveCollide
  simp

theorem particleStep_frame (w : World) :
    (particleStep w).gs = w.gs ∧
    (particleStep w).score = w.score ∧
    (particleStep w).health = w.health ∧
    (particleStep w).enemies = w.enemies ∧
    (particleStep w).boss = w.boss ∧
    (particleStep w).cooldowns = w.cooldowns ∧
    (particleStep w).resetCount = w.resetCount ∧
    (particleStep w).bossCompletions = w.bossCompletions ∧
    (particleStep w).level = w.level ∧
    (particleStep w).skills = w.skills ∧
    (particleStep w).lastSpawnTime = w.lastSpawnTime := by
  unfold particleStep
  simp

theorem checkGesture_frame (pts : List Point) (w : World) :
    (checkGesture pts w).health = w.health ∧
    (checkGesture pts w).cooldowns = w.cooldowns ∧
    (checkGesture pts w).skills = w.skills ∧
    (checkGesture pts w).isPaused = w.isPaused ∧
    (checkGesture pts w).lastSpawnTime = w.lastSpawnTime ∧
    (checkGesture pts w).resetCount = w.resetCount ∧
    (checkGesture pts w).boss.active = w.boss.active ∧
    (checkGesture pts w).boss.maxSigils = w.boss.maxSigils := by
  simp only [checkGesture, addBurst, handleLevelComplete]
  split
  · exact ⟨rfl, rfl, rfl, rfl, rfl, rfl, rfl, rfl⟩
  · rcases hg : GestureV1.recognizeGesture pts with _ | g
    · simp [hg]
    · simp only [hg]
      split_ifs <;> exact ⟨rfl, rfl, rfl, rfl, rfl, rfl, rfl, rfl⟩

theorem activateSkill_frame (now : ℤ) (winW winH : ℝ) (sk : SkillId) (w : World) :
    (activateSkill now winW winH sk w).gs = w.gs ∧
    (activateSkill now winW winH sk w).score = w.score ∧
    (activateSkill now winW winH sk w).health = w.health ∧
    (activateSkill now winW winH sk w).boss = w.boss ∧
    (activateSkill now winW winH sk w).resetCount = w.resetCount ∧
    (activateSkill now winW winH sk w).bossCompletions = w.bossCompletions ∧
    (activateSkill now winW winH sk w).level = w.level := by
  unfold activateSkill
  cases sk <;> simp

@[simp] theorem expireSkills_cooldowns (now : ℤ) (w : World) :
    (expireSkills now w).cooldowns = w.cooldowns := rfl

@[simp] theorem expireSkills_resetCount (now : ℤ) (w : World) :
    (expireSkills now w).resetCount = w.resetCount := rfl

@[simp] theorem expireSkills_bossCompletions (now : ℤ) (w : World) :
    (expireSkills now w).bossCompletions = w.bossCompletions := rfl

@[simp] theorem handleLevelComplete_cooldowns (w : World) :
    (handleLevelComplete w).cooldowns = w.cooldowns := by
  unfold handleLevelComplete
  split_ifs <;> rfl

@[simp] theorem handleLevelComplete_resetCount (w : World) :
    (handleLevelComplete w).resetCount = w.resetCount := by
  unfold handleLevelComplete
  split_ifs <;> rfl

@[simp] theorem handleLevelComplete_bossCompletions (w : World) :
    (handleLevelComplete w).bossCompletions = w.bossCompletions := by
  unfold handleLevelComplete
  split_ifs <;> rfl

@[simp] theorem spawnBossSigils_cooldowns (winW winH : ℝ) (w : World) :
    (spawnBossSigils winW winH w).cooldowns = w.cooldowns := rfl

@[simp] theorem spawnBossSigils_resetCount (winW winH : ℝ) (w : World) :
    (spawnBossSigils winW winH w).resetCount = w.resetCount := rfl

@[simp] theorem spawnBossSigils_bossCompletions (winW winH : ℝ) (w : World) :
    (spawnBossSigils winW winH w).bossCompletions = w.bossCompletions := rfl

@[simp] theorem rotateSigils_cooldowns (winW winH : ℝ) (w : World) :
    (rotateSigils winW winH w).cooldowns = w.cooldowns := rfl

@[simp] theorem rotateSigils_resetCount (winW winH : ℝ) (w : World) :
    (rotateSigils winW winH w).resetCount = w.resetCount := rfl

@[simp] theorem rotateSigils_bossCompletions (winW winH : ℝ) (w : World) :
    (rotateSigils winW winH w).bossCompletions = w.bossCompletions := rfl

@[simp] theorem spawnEnemy_cooldowns (ts : ℤ) (winW winH : ℝ) (r : SpawnRnd) (w : World) :
    (spawnEnemy ts winW winH r w).cooldowns = w.cooldowns := by
  unfold spawnEnemy
  split_ifs <;> rfl

@[simp] theorem spawnEnemy_resetCount (ts : ℤ) (winW winH : ℝ) (r : SpawnRnd) (w : World) :
    (spawnEnemy ts winW winH r w).resetCount = w.resetCount := by
  unfold spawnEnemy
  split_ifs <;> rfl

@[simp] theorem spawnEnemy_bossCompletions (ts : ℤ) (winW winH : ℝ) (r : SpawnRnd)
    (w : World) : (spawnEnemy ts winW winH r w).bossCompletions = w.bossCompletions := by
  unfold spawnEnemy
  split_ifs <;> rfl

@[simp] theorem moveCollide_cooldowns (winW winH : ℝ) (w : World) :
    (moveCollide winW winH w).cooldowns = w.cooldowns := rfl

@[simp] theorem moveCollide_resetCount (winW winH : ℝ) (w : World) :
    (moveCollide winW winH w).resetCount = w.resetCount := rfl

@[simp] theorem moveCollide_bossCompletions (winW winH : ℝ) (w : World) :
    (moveCollide winW winH w).bossCompletions = w.bossCompletions := rfl

@[simp] theorem particleStep_cooldowns (w : World) :
    (particleStep w).cooldowns = w.cooldowns := rfl

@[simp] theorem particleStep_resetCount (w : World) :
    (particleStep w).resetCount = w.resetCount := rfl

@[simp] theorem particleStep_bossCompletions (w : World) :
    (particleStep w).bossCompletions = w.bossCompletions := rfl

theorem tick_frame (ts now : ℤ) (winW winH : ℝ) (r : SpawnRnd) (w : World) :
    (tick ts now winW winH r w).cooldowns = w.cooldowns ∧
    (tick ts now winW winH r w).resetCount = w.resetCount ∧
    (tick ts now winW winH r w).bossCompletions = w.bossCompletions := by
  simp only [tick]
  split_ifs <;> simp

theorem initEffect_frame (t : ℤ) (w : World) :
    (initEffect t w).gs = w.gs ∧
    (initEffect t w).level = w.level ∧
    (initEffect t w).biomeIndex = w.biomeIndex ∧
    (initEffect t w).totalCleared = w.totalCleared ∧
    (initEffect t w).cooldowns = w.cooldowns ∧
    (initEffect t w).skills = w.skills ∧
    (initEffect t w).bossCompletions = w.bossCompletions ∧
    (initEffect t w).boss.currentSigils = w.boss.currentSigils ∧
    (initEffect t w).enemies = [] ∧
    (initEffect t w).particles = [] ∧
    (initEffect t w).boss.active = false ∧
    (initEffect t w).health = maxHealth ∧
    (initEffect t w).score = 0 ∧
    (initEffect t w).resetCount = w.resetCount + 1 := by
  unfold initEffect
  simp

@[simp] theorem checkGesture_cooldowns (pts : List Point) (w : World) :
    (checkGesture pts w).cooldowns = w.cooldowns := (checkGesture_frame pts w).2.1

@[simp] theorem checkGesture_resetCount (pts : List Point) (w : World) :
    (checkGesture pts w).resetCount = w.resetCount :=
  (checkGesture_frame pts w).2.2.2.2.2.1

@[simp] theorem expireSkills_level (now : ℤ) (w : World) :
    (expireSkills now w).level = w.level := rfl

@[simp] theorem expireSkills_score (now : ℤ) (w : World) :
    (expireSkills now w).score = w.score := rfl

@[simp] theorem targetScoreOf_expireSkills (now : ℤ) (w : World) :
    targetScoreOf (expireSkills now w) = targetScoreOf w := rfl

/-- The cooldown totals never move off their configured values. -/
theorem cooldownTotals_reachable {w : World} (h : Reachable w) :
    w.cooldowns.shield.total = 15000 ∧ w.cooldowns.hourglass.total = 20000 ∧
    w.cooldowns.bomb.total = 25000 := by
  induction h with
  | init => exact ⟨rfl, rfl, rfl⟩
  | next e hr ih =>
    cases e with
    | setGS g t =>
      simp only [step]
      split_ifs <;> simp_all [initEffect]
    | frame ts now winW winH r =>
      simp only [step]
      rw [(tick_frame ts now winW winH r _).1]
      exact ih
    | pointerStart x y =>
      simp only [step, inputStart]
      split_ifs <;> exact ih
    | pointerMove x y =>
      simp only [step, inputMove]
      split_ifs <;> exact ih
    | pointerEnd =>
      simp only [step, inputEnd]
      split_ifs
      · simpa using ih
      · exact ih
    | click sk now winW winH =>
      simp only [step, clickSkill]
      split_ifs with h1 h2 h3
      · exact ih
      · exact ih
      · exact ih
      · cases sk <;> simp only [activateSkill] <;> simp_all

end Game

/-- Claim C2: clicking any of the three skill buttons while that skill has a
cooldown-end timestamp in the future is a complete no-op: the world after the
click equals the world before it (skill flags, timers, time-scale factor,
cooldown ends, enemy registry and particles included). -/
theorem claim2_cooldown_rejects_activation (w : Game.World) (hw : Game.Reachable w)
    (sk : Game.SkillId) (now : ℤ) (winW winH : ℝ)
    (hcd : now < (Game.cooldownOf sk w).endT) :
    Game.clickSkill sk now winW winH w = w := by
  have ht : 0 < ((Game.cooldownOf sk w).total : ℚ) := by
    obtain ⟨h1, h2, h3⟩ := Game.cooldownTotals_reachable hw
    cases sk
    · unfold Game.cooldownOf
      rw [h1]
      norm_num
    · unfold Game.cooldownOf
      rw [h2]
      norm_num
    · unfold Game.cooldownOf
      rw [h3]
      norm_num
  have hp : 0 < Game.skillProgress now (Game.cooldownOf sk w) := by
    unfold Game.skillProgress
    rw [if_neg (by omega : ¬ (Game.cooldownOf sk w).endT ≤ now)]
    apply div_pos _ ht
    have : (0 : ℤ) < (Game.cooldownOf sk w).endT - now := by omega
    exact_mod_cast this
  unfold Game.clickSkill
  split_ifs <;> first
    | rfl
    | exact absurd hp (by assumption)

/-- Witness for C2: in the freshly mounted world all cooldown ends are 0, so
a click at time -1 (cooldown end in the future) changes nothing. -/
theorem claim2_cooldown_rejects_activation_witness :
    Game.clickSkill Game.SkillId.shield (-1) 0 0 Game.w0 = Game.w0 :=
  claim2_cooldown_rejects_activation Game.w0 Game.Reachable.init Game.SkillId.shield
    (-1) 0 0 (by norm_num [Game.cooldownOf, Game.w0])

/-- Claim C7: a playing, unpaused frame that starts on a normal level with
the score already at or past the target completes the level and abandons the
rest of the frame: the whole frame equals the ability-timer expiry followed
by handleLevelComplete, so no spawn, movement, collision, scoring or particle
mutation happens in it, and the state leaves PLAYING. -/
theorem claim7_target_reached_short_circuits_tick (w : Game.World) (ts now : ℤ)
    (winW winH : ℝ) (r : Game.SpawnRnd)
    (hgs : w.gs = Game.GameStateF.PLAYING) (hp : w.isPaused = false)
    (hb : w.level ≠ 11) (hsc : Game.targetScoreOf w ≤ w.score) :
    Game.tick ts now winW winH r w =
      Game.handleLevelComplete (Game.expireSkills now w) ∧
    (Game.tick ts now winW winH r w).enemies = w.enemies ∧
    (Game.tick ts now winW winH r w).particles = w.particles ∧
    (Game.tick ts now winW winH r w).score = w.score ∧
    (Game.tick ts now winW winH r w).health = w.health ∧
    (Game.tick ts now winW winH r w).lastSpawnTime = w.lastSpawnTime ∧
    (Game.tick ts now winW winH r w).gs = Game.GameStateF.LEVEL_COMPLETE := by
  have heq : Game.tick ts now winW winH r w =
      Game.handleLevelComplete (Game.expireSkills now w) := by
    simp only [Game.tick]
    rw [if_neg (by simp [hgs]), if_neg (by simp [hp]), if_pos]
    constructor
    · simpa using hb
    · simpa using hsc
  have hf := Game.handleLevelComplete_frame (Game.expireSkills now w)
  refine ⟨heq, ?_, ?_, ?_, ?_, ?_, ?_⟩ <;> rw [heq]
  · exact hf.1
  · exact hf.2.1
  · exact hf.2.2.1
  · exact hf.2.2.2.1
  · exact hf.2.2.2.2.1
  · exact hf.2.2.2.2.2.2.2.2.2.2.2

/-- Witness for C7: a playing world on level 1 with score 30 (the level-1
target) immediately level-completes on the next frame. -/
theorem claim7_target_reached_short_circuits_tick_witness :
    Game.tick 0 0 100 100 Game.dummyRnd Game.doneWorld =
      Game.handleLevelComplete (Game.expireSkills 0 Game.doneWorld) ∧
    (Game.tick 0 0 100 100 Game.dummyRnd Game.doneWorld).enemies =
      Game.doneWorld.enemies ∧
    (Game.tick 0 0 100 100 Game.dummyRnd Game.doneWorld).particles =
      Game.doneWorld.particles ∧
    (Game.tick 0 0 100 100 Game.dummyRnd Game.doneWorld).score =
      Game.doneWorld.score ∧
    (Game.tick 0 0 100 100 Game.dummyRnd Game.doneWorld).health =
      Game.doneWorld.health ∧
    (Game.tick 0 0 100 100 Game.dummyRnd Game.doneWorld).lastSpawnTime =
      Game.doneWorld.lastSpawnTime ∧
    (Game.tick 0 0 100 100 Game.dummyRnd Game.doneWorld).gs =
      Game.GameStateF.LEVEL_COMPLETE :=
  claim7_target_reached_short_circuits_tick Game.doneWorld 0 0 100 100 Game.dummyRnd
    rfl rfl (by norm_num [Game.doneWorld, Game.w0])
    (by norm_num [Game.doneWorld, Game.w0, Game.targetScoreOf, Game.getTargetScore,
      Game.LEVEL_SCORES])

/-- Claim C10: when the classifier recognizes a symbol but no live entity
carries it, the resolution only appends the red miss burst; the enemy
registry, score, sigil counter, health and all other state are untouched. -/
theorem claim10_recognized_miss_only_particles (w : Game.World) (pts : List Point)
    (g : SpellType) (hg : GestureV1.recognizeGesture pts = some g)
    (hmiss : Game.targetsOf g w = []) :
    Game.checkGesture pts w =
      { w with particles := w.particles ++
        [⟨(endPt pts).x, (endPt pts).y, Game.ColorT.red_ef4444, 8, false, 1⟩] } := by
  have hlen : ¬ pts.length < 2 := by
    have := lengthGe_of_recognizedV1 hg
    omega
  simp only [Game.checkGesture, hg]
  rw [if_neg hlen, hmiss]
  simp [Game.addBurst]

/-- Witness for C10: a recognized horizontal stroke against the mount world
(no enemies at all) only appends the miss burst. -/
theorem claim10_recognized_miss_only_particles_witness :
    Game.checkGesture (hLine 10) Game.w0 =
      { Game.w0 with particles := Game.w0.particles ++
        [⟨(endPt (hLine 10)).x, (endPt (hLine 10)).y, Game.ColorT.red_ef4444, 8,
          false, 1⟩] } :=
  claim10_recognized_miss_only_particles Game.w0 (hLine 10) SpellType.HORIZONTAL
    (recognizeGestureV1_hLine (by norm_num)) rfl

/-- Per-event reset accounting: the resetCount instrumentation (bumped by the
initialization effect and by nothing else) moves exactly on events that
switch the game state into PLAYING, and on no other event. -/
theorem step_resetCount (e : Game.Ev) (w : Game.World) :
    (Game.step e w).resetCount = w.resetCount +
      (match e with
        | .setGS g _ => if g = Game.GameStateF.PLAYING ∧ w.gs ≠ Game.GameStateF.PLAYING
            then 1 else 0
        | _ => 0) := by
  cases e with
  | setGS g t =>
    simp only [Game.step]
    by_cases h1 : g = w.gs
    · rw [if_pos h1]
      subst h1
      simp
    · rw [if_neg h1]
      by_cases h2 : g = Game.GameStateF.PLAYING
      · have h3 : w.gs ≠ Game.GameStateF.PLAYING := fun hh => h1 (h2.trans hh.symm)
        rw [if_pos h2]
        simp [Game.initEffect, h2, h3]
      · rw [if_neg h2]
        simp [h2]
  | frame ts now winW winH r =>
    simp only [Game.step]
    rw [(Game.tick_frame ts now winW winH r w).2.1]
    simp
  | pointerStart x y =>
    simp only [Game.step, Game.inputStart]
    split_ifs <;> simp
  | pointerMove x y =>
    simp only [Game.step, Game.inputMove]
    split_ifs <;> simp
  | pointerEnd =>
    simp only [Game.step, Game.inputEnd]
    split_ifs <;> simp
  | click sk now winW winH =>
    simp only [Game.step, Game.clickSkill]
    split_ifs <;> cases sk <;> simp [Game.activateSkill]

/-- Trace-level reset accounting. -/
theorem run_resetCount (es : List Game.Ev) : ∀ w : Game.World,
    (Game.run es w).resetCount = w.resetCount + Game.entersPlaying es w := by
  induction es with
  | nil => intro w; simp [Game.run, Game.entersPlaying]
  | cons e es ih =>
    intro w
    simp only [Game.run, Game.entersPlaying]
    rw [ih (Game.step e w), step_resetCount]
    cases e <;> simp <;> omega

/-- Claim C3: every transition into the PLAYING state performs exactly one
reset -- score zeroed, enemies and particles cleared, health restored to
maximum, boss flag cleared -- and that reset runs exactly once per such
entry: over any event trace the number of resets equals the number of
transitions into PLAYING, and in particular no frame (tick) ever resets. -/
theorem claim3_reset_exactly_once_per_level_entry :
    (∀ (t : ℤ) (w : Game.World),
      (Game.initEffect t w).score = 0 ∧
      (Game.initEffect t w).enemies = [] ∧
      (Game.initEffect t w).particles = [] ∧
      (Game.initEffect t w).health = Game.maxHealth ∧
      (Game.initEffect t w).boss.active = false ∧
      (Game.initEffect t w).resetCount = w.resetCount + 1) ∧
    (∀ (e : Game.Ev) (w : Game.World),
      (Game.step e w).resetCount = w.resetCount +
        (match e with
          | .setGS g _ => if g = Game.GameStateF.PLAYING ∧ w.gs ≠ Game.GameStateF.PLAYING
              then 1 else 0
          | _ => 0)) ∧
    (∀ (ts now : ℤ) (winW winH : ℝ) (r : Game.SpawnRnd) (w : Game.World),
      (Game.tick ts now winW winH r w).resetCount = w.resetCount) ∧
    (∀ (es : List Game.Ev) (w : Game.World),
      (Game.run es w).resetCount = w.resetCount + Game.entersPlaying es w) := by
  refine ⟨?_, step_resetCount, ?_, fun es w => run_resetCount es w⟩
  · intro t w
    obtain ⟨-, -, -, -, h5, -, -, -, h9, h10, h11, h12, h13, h14⟩ :=
      Game.initEffect_frame t w
    exact ⟨h13, h9, h10, h12, h11, h14⟩
  · intro ts now winW winH r w
    exact (Game.tick_frame ts now winW winH r w).2.1

namespace Game

/-! ### The resolution step in detail, and the sigil invariant -/

theorem checkGesture_short {pts : List Point} (w : World) (hl : pts.length < 2) :
    checkGesture pts w = w := by
  unfold checkGesture
  rw [if_pos hl]

theorem checkGesture_none {pts : List Point} (w : World) (hl : ¬ pts.length < 2)
    (hn : GestureV1.recognizeGesture pts = none) :
    checkGesture pts w = addBurst (endPt pts).x (endPt pts).y .gray555 5 false w := by
  simp only [checkGesture, hn]
  rw [if_neg hl]

theorem sigilCount_nonneg (es : List Enemy) : 0 ≤ sigilCount es := by
  unfold sigilCount
  exact_mod_cast Nat.zero_le _

theorem sigilCount_eq_countP (es : List Enemy) :
    sigilCount es = ((es.countP fun e => e.isBossSigil : ℕ) : ℤ) := by
  unfold sigilCount
  rw [List.countP_eq_length_filter]

theorem sigilKills_nonneg (g : SpellType) (w : World) : 0 ≤ sigilKills g w := by
  unfold sigilKills
  exact_mod_cast Nat.zero_le _

theorem regularKills_nonneg (g : SpellType) (w : World) : 0 ≤ regularKills g w := by
  unfold regularKills
  exact_mod_cast Nat.zero_le _

theorem sigilKills_le_sigilCount (g : SpellType) (w : World) :
    sigilKills g w ≤ sigilCount w.enemies := by
  unfold sigilKills targetsOf
  rw [sigilCount_eq_countP]
  rw [show ((w.enemies.filter fun e => decide (e.symbol = g)).filter
      fun t => t.isBossSigil).length =
      List.countP (fun t => t.isBossSigil)
        (w.enemies.filter fun e => decide (e.symbol = g)) from
    (List.countP_eq_length_filter _ _).symm]
  rw [List.countP_filter]
  have hmono : List.countP (fun a : Enemy => a.isBossSigil && decide (a.symbol = g))
      w.enemies ≤ List.countP (fun e : Enemy => e.isBossSigil) w.enemies :=
    List.countP_mono_left fun x _ h => ((Bool.and_eq_true _ _).mp h).1
  exact_mod_cast hmono

/-- Every matched entity has its id on the removal list, so the removal takes
out at least the matched sigils. -/
theorem removal_sigilCount_le (g : SpellType) (w : World) :
    sigilCount (w.enemies.filter fun e =>
        decide (e.id ∉ (targetsOf g w).map fun t => t.id)) ≤
      sigilCount w.enemies - sigilKills g w := by
  have hsplit := List.countP_eq_countP_filter_add w.enemies (fun e => e.isBossSigil)
    (fun e => decide (e.id ∈ (targetsOf g w).map fun t => t.id))
  have hkills : List.countP (fun t => t.isBossSigil) (targetsOf g w) ≤
      List.countP (fun e => e.isBossSigil)
        (w.enemies.filter fun e =>
          decide (e.id ∈ (targetsOf g w).map fun t => t.id)) := by
    rw [List.countP_filter]
    rw [show List.countP (fun t => t.isBossSigil) (targetsOf g w) =
        List.countP (fun e => e.isBossSigil && decide (e.symbol = g)) w.enemies from by
      unfold targetsOf
      rw [List.countP_filter]]
    apply List.countP_mono_left
    intro x hx h
    obtain ⟨h1, h2⟩ := (Bool.and_eq_true _ _).mp h
    refine (Bool.and_eq_true _ _).mpr ⟨h1, ?_⟩
    rw [decide_eq_true_iff] at h2 ⊢
    have hxt : x ∈ targetsOf g w := by
      unfold targetsOf
      rw [List.mem_filter]
      exact ⟨hx, decide_eq_true h2⟩
    exact List.mem_map.mpr ⟨x, hxt, rfl⟩
  have hnot : (w.enemies.filter fun e =>
      decide (e.id ∉ (targetsOf g w).map fun t => t.id)) =
      (w.enemies.filter fun e =>
        !decide (e.id ∈ (targetsOf g w).map fun t => t.id)) := by
    apply List.filter_congr
    intro x _
    exact decide_not
  rw [sigilCount_eq_countP, sigilCount_eq_countP, hnot]
  unfold sigilKills
  rw [show ((targetsOf g w).filter fun t => t.isBossSigil).length =
      List.countP (fun t => t.isBossSigil) (targetsOf g w) from
    (List.countP_eq_length_filter _ _).symm]
  omega

theorem handleLevelComplete_level (w : World) :
    (handleLevelComplete w).level = if w.level = 11 then 1 else w.level + 1 := by
  unfold handleLevelComplete
  split_ifs <;> rfl

@[simp] theorem handleLevelComplete_enemies (w : World) :
    (handleLevelComplete w).enemies = w.enemies := by
  unfold handleLevelComplete
  split_ifs <;> rfl

@[simp] theorem handleLevelComplete_score (w : World) :
    (handleLevelComplete w).score = w.score := by
  unfold handleLevelComplete
  split_ifs <;> rfl

@[simp] theorem handleLevelComplete_boss (w : World) :
    (handleLevelComplete w).boss = w.boss := by
  unfold handleLevelComplete
  split_ifs <;> rfl

@[simp] theorem handleLevelComplete_gs (w : World) :
    (handleLevelComplete w).gs = GameStateF.LEVEL_COMPLETE := by
  unfold handleLevelComplete
  split_ifs <;> rfl

/-- The full effect of one recognized resolution on registry, counter, score,
completion instrumentation, game state and level; all six equations hold in
every branch of checkGesture (miss included, where all the deltas are
zero). -/
theorem checkGesture_spec (pts : List Point) (w : World) (g : SpellType)
    (hg : GestureV1.recognizeGesture pts = some g) :
    (checkGesture pts w).enemies =
      (w.enemies.filter fun e =>
        decide (e.id ∉ (targetsOf g w).map fun t => t.id)) ∧
    (checkGesture pts w).boss.currentSigils =
      w.boss.currentSigils - sigilKills g w ∧
    (checkGesture pts w).score = w.score +
      (if 0 < regularKills g w * killValue w then regularKills g w * killValue w
        else 0) +
      (if firedBy g w then 1000 else 0) ∧
    ((checkGesture pts w).bossCompletions : ℤ) = (w.bossCompletions : ℤ) +
      (if firedBy g w then 1 else 0) ∧
    (checkGesture pts w).gs =
      (if firedBy g w then GameStateF.LEVEL_COMPLETE else w.gs) ∧
    (checkGesture pts w).level =
      (if firedBy g w then (if w.level = 11 then 1 else w.level + 1)
        else w.level) := by
  have hlen : ¬ pts.length < 2 := by
    have := lengthGe_of_recognizedV1 hg
    omega
  have hDn := sigilKills_nonneg g w
  simp only [checkGesture, hg]
  rw [if_neg hlen]
  by_cases h1 : 0 < (targetsOf g w).length
  · rw [if_pos h1]
    by_cases h2 : (0 : ℤ) < sigilKills g w
    · rw [if_pos h2]
      by_cases h3 : w.boss.currentSigils - sigilKills g w ≤ 0
      · -- boss complete
        have hfired : firedBy g w := ⟨h2, h3⟩
        rw [if_pos h3]
        refine ⟨by simp, by simp, ?_, ?_, by simp [hfired], ?_⟩
        · simp only [handleLevelComplete_score]
          rw [if_pos hfired]
          split_ifs <;> ring
        · simp only [handleLevelComplete_bossCompletions]
          rw [if_pos hfired]
          push_cast
          try ring
        · rw [handleLevelComplete_level, if_pos hfired]
          try rfl
      · -- sigils destroyed, counter still positive
        have hfired : ¬ firedBy g w := fun hf => h3 hf.2
        rw [if_neg h3]
        refine ⟨rfl, rfl, ?_, ?_, ?_, ?_⟩
        · rw [if_neg hfired]
          split_ifs <;> ring
        · rw [if_neg hfired]
          try simp
        · rw [if_neg hfired]
          try simp
        · rw [if_neg hfired]
          try simp
    · -- a hit with no sigils among the targets
      have hD : sigilKills g w = 0 := by omega
      have hfired : ¬ firedBy g w := fun hf => h2 hf.1
      rw [if_neg h2]
      refine ⟨rfl, ?_, ?_, ?_, ?_, ?_⟩
      · rw [hD]
        ring
      · rw [if_neg hfired]
        split_ifs <;> ring
      · rw [if_neg hfired]
        try simp
      · rw [if_neg hfired]
        try simp
      · rw [if_neg hfired]
        try simp
  · -- no live entity matched: the miss branch
    have htg : targetsOf g w = [] := List.length_eq_zero.mp (by omega)
    have hD : sigilKills g w = 0 := by
      unfold sigilKills
      rw [htg]
      rfl
    have hR : regularKills g w = 0 := by
      unfold regularKills
      rw [htg]
      rfl
    have hfired : ¬ firedBy g w := by
      intro hf
      obtain ⟨hf1, -⟩ := hf
      omega
    rw [if_neg h1]
    refine ⟨?_, ?_, ?_, ?_, ?_, ?_⟩
    · rw [htg]
      simp [addBurst]
    · rw [hD]
      simp [addBurst]
    · rw [hR, if_neg hfired]
      simp [addBurst]
    · rw [if_neg hfired]
      simp [addBurst]
    · rw [if_neg hfired]
      simp [addBurst]
    · rw [if_neg hfired]
      simp [addBurst]

/-! ### Sigil counting under the registry operations -/

theorem sigilCount_append (a b : List Enemy) :
    sigilCount (a ++ b) = sigilCount a + sigilCount b := by
  unfold sigilCount
  rw [List.filter_append, List.length_append]
  push_cast
  ring

theorem moveEnemy_isBossSigil (cX cY dt : ℝ) (e : Enemy) :
    (moveEnemy cX cY dt e).isBossSigil = e.isBossSigil := by
  simp only [moveEnemy]
  split_ifs <;> rfl

theorem sigilCount_map (f : Enemy → Enemy)
    (hf : ∀ e, (f e).isBossSigil = e.isBossSigil) (es : List Enemy) :
    sigilCount (es.map f) = sigilCount es := by
  rw [sigilCount_eq_countP, sigilCount_eq_countP, List.countP_map]
  have h1 : List.countP ((fun e => e.isBossSigil) ∘ f) es =
      List.countP (fun e => e.isBossSigil) es :=
    List.countP_congr fun a _ => by simp [Function.comp, hf a]
  rw [h1]

theorem sigilCount_filter_le (p : Enemy → Bool) (es : List Enemy) :
    sigilCount (es.filter p) ≤ sigilCount es := by
  rw [sigilCount_eq_countP, sigilCount_eq_countP, List.countP_filter]
  have hmono : List.countP (fun a : Enemy => a.isBossSigil && p a) es ≤
      List.countP (fun e : Enemy => e.isBossSigil) es :=
    List.countP_mono_left fun x _ h => ((Bool.and_eq_true _ _).mp h).1
  exact_mod_cast hmono

theorem sigilCount_filter_sigils (es : List Enemy) :
    sigilCount (es.filter fun e => e.isBossSigil) = sigilCount es := by
  rw [sigilCount_eq_countP, sigilCount_eq_countP, List.countP_filter]
  have h1 : List.countP (fun a : Enemy => a.isBossSigil && a.isBossSigil) es =
      List.countP (fun e : Enemy => e.isBossSigil) es :=
    List.countP_congr fun a _ => by simp
  rw [h1]

theorem sigilCount_map_range (f : ℕ → Enemy) (n : ℕ)
    (hf : ∀ i, (f i).isBossSigil = true) :
    sigilCount ((List.range n).map f) = (n : ℤ) := by
  rw [sigilCount_eq_countP, List.countP_map]
  have h1 : List.countP ((fun e => e.isBossSigil) ∘ f) (List.range n) =
      List.countP (fun _ => true) (List.range n) :=
    List.countP_congr fun a _ => by simp [Function.comp, hf a]
  rw [h1]
  simp

theorem spawnBossSigils_sigilCount (winW winH : ℝ) (w : World) :
    sigilCount (spawnBossSigils winW winH w).enemies = ((4 + w.biomeIndex : ℕ) : ℤ) := by
  simp only [spawnBossSigils]
  exact sigilCount_map_range _ _ fun i => rfl

theorem rotateSigils_sigilCount (winW winH : ℝ) (w : World) :
    sigilCount (rotateSigils winW winH w).enemies = sigilCount w.enemies := by
  simp only [rotateSigils]
  exact sigilCount_map _ (fun e => by split <;> rfl) w.enemies

theorem moveCollide_sigilCount (winW winH : ℝ) (w : World) :
    sigilCount (moveCollide winW winH w).enemies ≤ sigilCount w.enemies := by
  simp only [moveCollide]
  rw [sigilCount_map _ fun e => moveEnemy_isBossSigil _ _ _ e]
  exact sigilCount_filter_le _ _

theorem sigilCount_append_single (es : List Enemy) (e : Enemy)
    (he : e.isBossSigil = false) : sigilCount (es ++ [e]) = sigilCount es := by
  rw [sigilCount_append]
  have h0 : sigilCount [e] = 0 := by
    unfold sigilCount
    simp [he]
  rw [h0]
  ring

theorem spawnEnemy_sigilCount (ts : ℤ) (winW winH : ℝ) (r : SpawnRnd) (w : World) :
    sigilCount (spawnEnemy ts winW winH r w).enemies = sigilCount w.enemies := by
  simp only [spawnEnemy]
  split_ifs
  · rfl
  all_goals exact sigilCount_append_single w.enemies _ rfl

/-! ### Preservation of the sigil and cooldown invariant -/

theorem Inv_mono {w w' : World} (hw : Inv w)
    (hb : w'.boss.currentSigils = w.boss.currentSigils)
    (hs : sigilCount w'.enemies ≤ sigilCount w.enemies)
    (hl : w'.level = w.level)
    (hc : w'.cooldowns = w.cooldowns) : Inv w' := by
  obtain ⟨h1, h2, h3, h4, h5, h6⟩ := hw
  have hn := sigilCount_nonneg w'.enemies
  refine ⟨by omega, by omega, ?_, ?_, ?_, ?_⟩
  · intro hne
    rw [hl] at hne
    have := h3 hne
    omega
  · rw [hc]; exact h4
  · rw [hc]; exact h5
  · rw [hc]; exact h6

theorem expireSkills_Inv (now : ℤ) {w : World} (hw : Inv w) :
    Inv (expireSkills now w) := by
  obtain ⟨-, -, -, hE, -, hB, hC, -, -, hL, -, -, -⟩ := expireSkills_frame now w
  exact Inv_mono hw (by rw [hB]) (le_of_eq (by rw [hE])) hL hC

theorem handleLevelComplete_Inv {w : World} (hw : Inv w)
    (hz : sigilCount w.enemies = 0) : Inv (handleLevelComplete w) := by
  obtain ⟨h1, h2, h3, h4, h5, h6⟩ := hw
  obtain ⟨hE, -, -, -, -, hC, -, hB, -, -, -, -⟩ := handleLevelComplete_frame w
  refine ⟨by rw [hB]; exact h1, ?_, ?_, ?_, ?_, ?_⟩
  · rw [hB, hE]; omega
  · intro _
    rw [hE]; exact hz
  · rw [hC]; exact h4
  · rw [hC]; exact h5
  · rw [hC]; exact h6

theorem spawnBossSigils_Inv (winW winH : ℝ) {w : World} (hw : Inv w)
    (hl : w.level = 11) : Inv (spawnBossSigils winW winH w) := by
  obtain ⟨h1, h2, h3, h4, h5, h6⟩ := hw
  obtain ⟨-, -, -, -, hC, -, -, hL, -, -⟩ := spawnBossSigils_frame winW winH w
  have hcnt := spawnBossSigils_sigilCount winW winH w
  have hboss : (spawnBossSigils winW winH w).boss.currentSigils =
      ((4 + w.biomeIndex : ℕ) : ℤ) := rfl
  refine ⟨by rw [hboss]; positivity, by rw [hboss, hcnt], ?_, ?_, ?_, ?_⟩
  · intro hne
    rw [hL, hl] at hne
    exact absurd rfl hne
  · rw [hC]; exact h4
  · rw [hC]; exact h5
  · rw [hC]; exact h6

theorem rotateSigils_Inv (winW winH : ℝ) {w : World} (hw : Inv w) :
    Inv (rotateSigils winW winH w) := by
  obtain ⟨-, -, -, -, hB, hC, -, -, hL, -, -⟩ := rotateSigils_frame winW winH w
  exact Inv_mono hw (by rw [hB]) (le_of_eq (rotateSigils_sigilCount winW winH w)) hL hC

theorem spawnEnemy_Inv (ts : ℤ) (winW winH : ℝ) (r : SpawnRnd) {w : World}
    (hw : Inv w) : Inv (spawnEnemy ts winW winH r w) := by
  obtain ⟨-, -, -, -, hB, hC, -, -, hL, -⟩ := spawnEnemy_frame ts winW winH r w
  exact Inv_mono hw (by rw [hB]) (le_of_eq (spawnEnemy_sigilCount ts winW winH r w)) hL hC

theorem moveCollide_Inv (winW winH : ℝ) {w : World} (hw : Inv w) :
    Inv (moveCollide winW winH w) := by
  obtain ⟨-, hB, hC, -, -, hL, -, -⟩ := moveCollide_frame winW winH w
  exact Inv_mono hw (by rw [hB]) (moveCollide_sigilCount winW winH w) hL hC

theorem particleStep_Inv {w : World} (hw : Inv w) : Inv (particleStep w) := by
  obtain ⟨-, -, -, hE, hB, hC, -, -, hL, -, -⟩ := particleStep_frame w
  exact Inv_mono hw (by rw [hB]) (le_of_eq (by rw [hE])) hL hC

theorem checkGesture_Inv (pts : List Point) {w : World} (hw : Inv w) :
    Inv (checkGesture pts w) := by
  by_cases hl : pts.length < 2
  · rw [checkGesture_short w hl]
    exact hw
  · rcases hg : GestureV1.recognizeGesture pts with _ | g
    · rw [checkGesture_none w hl hg]
      exact Inv_mono hw (by simp [addBurst]) (le_of_eq (by simp [addBurst]))
        (by simp [addBurst]) (by simp [addBurst])
    · obtain ⟨hE, hB, -, -, -, hL⟩ := checkGesture_spec pts w g hg
      obtain ⟨h1, h2, h3, h4, h5, h6⟩ := hw
      have hk1 := sigilKills_nonneg g w
      have hk2 := sigilKills_le_sigilCount g w
      have hrem := removal_sigilCount_le g w
      have hcool := (checkGesture_frame pts w).2.1
      have hn := sigilCount_nonneg (checkGesture pts w).enemies
      rw [← hE] at hrem
      refine ⟨by omega, by omega, ?_, ?_, ?_, ?_⟩
      · intro hne
        by_cases hw11 : w.level = 11
        · by_cases hf : firedBy g w
          · have := hf.2
            omega
          · rw [hL, if_neg hf, hw11] at hne
            exact absurd rfl hne
        · have hz := h3 hw11
          omega
      · rw [hcool]; exact h4
      · rw [hcool]; exact h5
      · rw [hcool]; exact h6

theorem activateSkill_Inv (now : ℤ) (winW winH : ℝ) (sk : SkillId) {w : World}
    (hw : Inv w) : Inv (activateSkill now winW winH sk w) := by
  obtain ⟨h1, h2, h3, h4, h5, h6⟩ := hw
  cases sk
  · exact ⟨h1, h2, h3, rfl, h5, h6⟩
  · exact ⟨h1, h2, h3, h4, rfl, h6⟩
  · refine ⟨h1, ?_, ?_, h4, h5, rfl⟩
    · rw [show (activateSkill now winW winH .bomb w).enemies =
          w.enemies.filter (fun e => e.isBossSigil) from rfl]
      rw [sigilCount_filter_sigils]
      exact h2
    · intro hne
      rw [show (activateSkill now winW winH .bomb w).enemies =
          w.enemies.filter (fun e => e.isBossSigil) from rfl]
      rw [sigilCount_filter_sigils]
      exact h3 hne

theorem initEffect_Inv (t : ℤ) {w : World} (hw : Inv w) : Inv (initEffect t w) := by
  obtain ⟨h1, h2, h3, h4, h5, h6⟩ := hw
  exact ⟨h1, by rw [show (initEffect t w).enemies = [] from rfl]; exact h1,
    fun _ => rfl, h4, h5, h6⟩

theorem tick_Inv (ts now : ℤ) (winW winH : ℝ) (r : SpawnRnd) {w : World}
    (hw : Inv w) : Inv (tick ts now winW winH r w) := by
  have hw1 := expireSkills_Inv now hw
  simp only [tick]
  split_ifs with h1 h2 h3 h4 h5 h6 h7 h8
  · exact hw
  · exact Inv_mono hw rfl le_rfl rfl rfl
  · exact handleLevelComplete_Inv hw1 (hw1.2.2.1 h3.1)
  · exact particleStep_Inv (moveCollide_Inv winW winH (Inv_mono
      (spawnEnemy_Inv ts winW winH r
        (rotateSigils_Inv winW winH (spawnBossSigils_Inv winW winH hw1 h4)))
      rfl le_rfl rfl rfl))
  · exact particleStep_Inv (moveCollide_Inv winW winH
      (rotateSigils_Inv winW winH (spawnBossSigils_Inv winW winH hw1 h4)))
  · exact particleStep_Inv (moveCollide_Inv winW winH (Inv_mono
      (spawnEnemy_Inv ts winW winH r (rotateSigils_Inv winW winH hw1))
      rfl le_rfl rfl rfl))
  · exact particleStep_Inv (moveCollide_Inv winW winH (rotateSigils_Inv winW winH hw1))
  · exact particleStep_Inv (moveCollide_Inv winW winH (Inv_mono
      (spawnEnemy_Inv ts winW winH r hw1) rfl le_rfl rfl rfl))
  · exact particleStep_Inv (moveCollide_Inv winW winH hw1)

theorem step_Inv (e : Ev) {w : World} (hw : Inv w) : Inv (step e w) := by
  cases e with
  | setGS g t =>
    simp only [step]
    split_ifs with h1 h2
    · exact hw
    · exact initEffect_Inv t (Inv_mono hw rfl le_rfl rfl rfl)
    · exact Inv_mono hw rfl le_rfl rfl rfl
  | frame ts now winW winH r => exact tick_Inv ts now winW winH r hw
  | pointerStart x y =>
    simp only [step, inputStart]
    split_ifs
    · exact Inv_mono hw rfl le_rfl rfl rfl
    · exact hw
  | pointerMove x y =>
    simp only [step, inputMove]
    split_ifs
    · exact Inv_mono hw rfl le_rfl rfl rfl
    · exact hw
    · exact hw
  | pointerEnd =>
    simp only [step, inputEnd]
    split_ifs with h1
    · exact Inv_mono (checkGesture_Inv w.drawingPts hw) rfl le_rfl rfl rfl
    · exact hw
  | click sk now winW winH =>
    simp only [step, clickSkill]
    split_ifs
    · exact hw
    · exact hw
    · exact hw
    · exact activateSkill_Inv now winW winH sk hw

theorem Inv_w0 : Inv w0 := by
  refine ⟨le_refl 0, le_of_eq rfl, fun _ => rfl, rfl, rfl, rfl⟩

theorem reachable_Inv {w : World} (hw : Reachable w) : Inv w := by
  induction hw with
  | init => exact Inv_w0
  | next e _ ih => exact step_Inv e ih

/-- Claim C5: in every reachable world the remaining-sigil counter is
nonnegative; a recognized resolution keeps it nonnegative, bumps the
boss-completion instrumentation exactly when destroying at least one sigil
drives the counter to zero, and such a completion fires once: the state
becomes LEVEL_COMPLETE and the 1000 bonus is credited exactly once on top of
the nonnegative regular-kill score. -/
theorem claim5_sigil_counter_nonneg_single_completion (w : World)
    (hw : Reachable w) (pts : List Point) (g : SpellType)
    (hg : GestureV1.recognizeGesture pts = some g) :
    0 ≤ w.boss.currentSigils ∧
    0 ≤ (checkGesture pts w).boss.currentSigils ∧
    ((checkGesture pts w).bossCompletions : ℤ) = (w.bossCompletions : ℤ) +
      (if 0 < sigilKills g w ∧ (checkGesture pts w).boss.currentSigils = 0
        then 1 else 0) ∧
    (0 < sigilKills g w ∧ (checkGesture pts w).boss.currentSigils = 0 →
      (checkGesture pts w).gs = GameStateF.LEVEL_COMPLETE ∧
      ∃ s : ℤ, 0 ≤ s ∧ (checkGesture pts w).score = w.score + s + 1000) := by
  obtain ⟨h1, h2, h3, h4, h5, h6⟩ := reachable_Inv hw
  obtain ⟨hE, hB, hS, hC, hG, hL⟩ := checkGesture_spec pts w g hg
  have hk1 := sigilKills_nonneg g w
  have hk2 := sigilKills_le_sigilCount g w
  have hiff : (0 < sigilKills g w ∧ (checkGesture pts w).boss.currentSigils = 0)
      ↔ firedBy g w := by
    unfold firedBy
    rw [hB]
    constructor
    · rintro ⟨ha, hb⟩
      exact ⟨ha, by omega⟩
    · rintro ⟨ha, hb⟩
      exact ⟨ha, by omega⟩
  refine ⟨h1, by rw [hB]; omega, ?_, ?_⟩
  · rw [hC]
    congr 1
    exact if_congr hiff.symm rfl rfl
  · intro hcond
    have hf := hiff.mp hcond
    refine ⟨by rw [hG, if_pos hf], ?_⟩
    refine ⟨(if 0 < regularKills g w * killValue w then regularKills g w * killValue w
      else 0), ?_, ?_⟩
    · split_ifs with h
      · exact le_of_lt h
      · exact le_refl 0
    · rw [hS, if_pos hf]

/-- Satisfiability witness for the C5 theorem at the mounted world and a
10-point horizontal stroke. -/
theorem claim5_sigil_counter_nonneg_single_completion_witness :
    GestureV1.recognizeGesture (hLine 10) = some SpellType.HORIZONTAL ∧
    0 ≤ (checkGesture (hLine 10) w0).boss.currentSigils := by
  have hg : GestureV1.recognizeGesture (hLine 10) = some SpellType.HORIZONTAL :=
    recognizeGestureV1_hLine (by norm_num)
  exact ⟨hg, (claim5_sigil_counter_nonneg_single_completion w0 Reachable.init
    (hLine 10) SpellType.HORIZONTAL hg).2.1⟩

/-- Claim C1: one recognized resolution removes exactly the live entities
whose assigned symbol matches the classified one — the registry keeps
precisely the non-matching entities and shrinks by the number of matches —
and on a non-boss level the score grows by exactly the number of destroyed
regular enemies times the per-kill value 10 * (1 + biomeIndex), while on the
boss level regular kills credit nothing (only a completion credits its
separate 1000). -/
theorem claim1_matching_entities_removed (w : World) (hw : Reachable w)
    (pts : List Point) (g : SpellType)
    (hg : GestureV1.recognizeGesture pts = some g)
    (hids : (w.enemies.map fun e => e.id).Nodup) :
    (checkGesture pts w).enemies =
      w.enemies.filter (fun e => decide (¬ e.symbol = g)) ∧
    (checkGesture pts w).enemies.length + (targetsOf g w).length =
      w.enemies.length ∧
    (w.level ≠ 11 →
      (checkGesture pts w).score =
        w.score + regularKills g w * (10 * (1 + (w.biomeIndex : ℤ)))) ∧
    (w.level = 11 →
      (checkGesture pts w).score =
        w.score + (if firedBy g w then 1000 else 0)) := by
  obtain ⟨hE, hB, hS, hC, hG, hL⟩ := checkGesture_spec pts w g hg
  have hinj := List.inj_on_of_nodup_map hids
  have hfilt : (w.enemies.filter fun e =>
      decide (e.id ∉ (targetsOf g w).map fun t => t.id)) =
      w.enemies.filter (fun e => decide (¬ e.symbol = g)) := by
    apply List.filter_congr
    intro e he
    rw [decide_eq_decide]
    constructor
    · intro hnot hsym
      exact hnot (List.mem_map.mpr
        ⟨e, List.mem_filter.mpr ⟨he, decide_eq_true hsym⟩, rfl⟩)
    · intro hnsym hmem
      obtain ⟨t, ht, hid⟩ := List.mem_map.mp hmem
      have htE : t ∈ w.enemies := (List.mem_filter.mp ht).1
      have hte : t = e := hinj htE he hid
      rw [hte] at ht
      exact hnsym (of_decide_eq_true (List.mem_filter.mp ht).2)
  have hEn := hE.trans hfilt
  refine ⟨hEn, ?_, ?_, ?_⟩
  · rw [hEn]
    have hsplit := w.enemies.length_eq_length_filter_add
      (fun e => decide (e.symbol = g))
    have hnotform : (w.enemies.filter (fun e => decide (¬ e.symbol = g))) =
        (w.enemies.filter fun e => ! decide (e.symbol = g)) :=
      List.filter_congr fun e _ => decide_not
    unfold targetsOf
    rw [hnotform]
    omega
  · intro hne
    have hInv := reachable_Inv hw
    have hz : sigilCount w.enemies = 0 := hInv.2.2.1 hne
    have hk2 := sigilKills_le_sigilCount g w
    have hk1 := sigilKills_nonneg g w
    have hnf : ¬ firedBy g w := fun hf => by
      have := hf.1
      omega
    have hkv : killValue w = 10 * (1 + (w.biomeIndex : ℤ)) := by
      unfold killValue
      rw [if_neg hne]
    rw [hS, if_neg hnf, hkv]
    have hrk := regularKills_nonneg g w
    rcases eq_or_lt_of_le hrk with h | h
    · rw [← h]
      norm_num
    · have hbio : (0 : ℤ) < 10 * (1 + (w.biomeIndex : ℤ)) := by positivity
      rw [if_pos (mul_pos h hbio)]
      ring
  · intro h11
    have hkv0 : killValue w = 0 := by
      unfold killValue
      rw [if_pos h11]
    rw [hS, hkv0]
    norm_num

/-- Satisfiability witness for the C1 theorem at the mounted world (empty
registry, so zero matches are removed) and a horizontal stroke. -/
theorem claim1_matching_entities_removed_witness :
    (w0.enemies.map fun e => e.id).Nodup ∧
    (checkGesture (hLine 10) w0).enemies =
      w0.enemies.filter (fun e => decide (¬ e.symbol = SpellType.HORIZONTAL)) := by
  have hg : GestureV1.recognizeGesture (hLine 10) = some SpellType.HORIZONTAL :=
    recognizeGestureV1_hLine (by norm_num)
  have hnd : (w0.enemies.map fun e => e.id).Nodup := List.nodup_nil
  exact ⟨hnd, (claim1_matching_entities_removed w0 Reachable.init
    (hLine 10) SpellType.HORIZONTAL hg hnd).1⟩

/-! ### The collision frame in detail -/

theorem moveCollide_health (winW winH : ℝ) (w : World) :
    (moveCollide winW winH w).health =
      if w.skills.shieldActive then w.health
      else w.health - ((w.enemies.filter fun e =>
        decide (collides (winW / 2) (winH / 2) e)).length : ℤ) := rfl

theorem moveCollide_gs (winW winH : ℝ) (w : World) :
    (moveCollide winW winH w).gs =
      if w.skills.shieldActive = false ∧
          1 ≤ ((w.enemies.filter fun e =>
            decide (collides (winW / 2) (winH / 2) e)).length : ℤ) ∧
          (if w.skills.shieldActive then w.health
            else w.health - ((w.enemies.filter fun e =>
              decide (collides (winW / 2) (winH / 2) e)).length : ℤ)) ≤ 0
        then GameStateF.GAME_OVER else w.gs := rfl

theorem moveCollide_enemies (winW winH : ℝ) (w : World) :
    (moveCollide winW winH w).enemies =
      (w.enemies.filter fun e =>
        decide (¬ collides (winW / 2) (winH / 2) e)).map
        (moveEnemy (winW / 2) (winH / 2) w.skills.timeScale) := rfl

theorem expireSkills_of_current (now : ℤ) (w : World)
    (hsh : w.skills.shieldActive = true → now ≤ w.skills.shieldEndTime)
    (hts : w.skills.timeSlowActive = true → now ≤ w.skills.timeSlowEndTime) :
    expireSkills now w = w := by
  have h1 : ¬(w.skills.shieldActive = true ∧ now > w.skills.shieldEndTime) :=
    fun h => absurd (hsh h.1) (not_le.mpr h.2)
  have h2 : ¬(w.skills.timeSlowActive = true ∧ now > w.skills.timeSlowEndTime) :=
    fun h => absurd (hts h.1) (not_le.mpr h.2)
  simp only [expireSkills]
  rw [if_neg h1, if_neg h2]

/-- A playing, unpaused frame with no ability timer expiring, target not yet
reached, off the boss level and inside the spawn interval reduces to the
movement-collision phase followed by particle aging. -/
theorem tick_plain (ts now : ℤ) (winW winH : ℝ) (r : SpawnRnd) (w : World)
    (hgs : w.gs = .PLAYING) (hp : w.isPaused = false)
    (hsh : w.skills.shieldActive = true → now ≤ w.skills.shieldEndTime)
    (hts : w.skills.timeSlowActive = true → now ≤ w.skills.timeSlowEndTime)
    (htar : w.score < targetScoreOf w) (hlv : w.level ≠ 11)
    (hspawn : ((ts - w.lastSpawnTime : ℤ) : ℚ) ≤ normalSpawnRate w.level w.biomeIndex) :
    tick ts now winW winH r w = particleStep (moveCollide winW winH w) := by
  have hexp : expireSkills now w = w := expireSkills_of_current now w hsh hts
  simp only [tick, hexp, hgs, hp]
  rw [if_neg (by simp : ¬(GameStateF.PLAYING ≠ GameStateF.PLAYING))]
  rw [if_neg (by simp : ¬(false = true))]
  rw [if_neg (fun h => absurd h.2 (not_le.mpr htar))]
  rw [if_neg hlv]
  rw [if_neg (not_lt.mpr hspawn)]

/-- Claim C6 (amended): on a plain collision frame every enemy within the
fixed proximity radius of the center is removed and the survivors move —
shield or not; with no shield active, health drops by exactly the number of
colliding enemies — one per enemy, possibly past zero in a single frame —
and the terminal game-over state fires exactly when no shield is active, at
least one enemy collided and the decremented health is at or below zero;
with the shield active health and game state are untouched. -/
theorem claim6_collision_damage (w : World) (ts now : ℤ) (winW winH : ℝ)
    (r : SpawnRnd)
    (hgs : w.gs = .PLAYING) (hp : w.isPaused = false)
    (hsh : w.skills.shieldActive = true → now ≤ w.skills.shieldEndTime)
    (hts : w.skills.timeSlowActive = true → now ≤ w.skills.timeSlowEndTime)
    (htar : w.score < targetScoreOf w) (hlv : w.level ≠ 11)
    (hspawn : ((ts - w.lastSpawnTime : ℤ) : ℚ) ≤ normalSpawnRate w.level w.biomeIndex) :
    (tick ts now winW winH r w).health =
      (if w.skills.shieldActive then w.health
        else w.health - ((w.enemies.filter fun e =>
          decide (collides (winW / 2) (winH / 2) e)).length : ℤ)) ∧
    (tick ts now winW winH r w).gs =
      (if w.skills.shieldActive = false ∧
          1 ≤ ((w.enemies.filter fun e =>
            decide (collides (winW / 2) (winH / 2) e)).length : ℤ) ∧
          w.health - ((w.enemies.filter fun e =>
            decide (collides (winW / 2) (winH / 2) e)).length : ℤ) ≤ 0
        then GameStateF.GAME_OVER else w.gs) ∧
    (tick ts now winW winH r w).enemies =
      ((w.enemies.filter fun e =>
        decide (¬ collides (winW / 2) (winH / 2) e)).map
          (moveEnemy (winW / 2) (winH / 2) w.skills.timeScale)) := by
  rw [tick_plain ts now winW winH r w hgs hp hsh hts htar hlv hspawn]
  refine ⟨?_, ?_, ?_⟩
  · rw [(particleStep_frame _).2.2.1, moveCollide_health]
  · rw [(particleStep_frame _).1, moveCollide_gs]
    cases hb : w.skills.shieldActive <;> simp [hb]
  · rw [(particleStep_frame _).2.2.2.1, moveCollide_enemies]

/-- Satisfiability witness for the amended C6 theorem, exercising both shield
states: a frame on a playing world with one enemy sitting on the center with
the shield down (health drops by the collision count), and the same frame
with the shield up (health untouched). -/
theorem claim6_collision_damage_witness :
    hitWorld.gs = GameStateF.PLAYING ∧
    hitWorld.score < targetScoreOf hitWorld ∧
    (tick 0 0 100 100 dummyRnd hitWorld).health =
      (if hitWorld.skills.shieldActive then hitWorld.health
        else hitWorld.health - ((hitWorld.enemies.filter fun e =>
          decide (collides ((100 : ℝ) / 2) ((100 : ℝ) / 2) e)).length : ℤ)) ∧
    (tick 0 0 100 100 dummyRnd
      { hitWorld with skills := ⟨true, 1, false, 0, 1.0⟩ }).health =
      hitWorld.health := by
  have htar : hitWorld.score < targetScoreOf hitWorld := by
    show (0 : ℤ) < targetScoreOf hitWorld
    norm_num [targetScoreOf, getTargetScore, LEVEL_SCORES, hitWorld, w0]
  have htar2 : ({ hitWorld with
      skills := ⟨true, 1, false, 0, 1.0⟩ } : World).score <
      targetScoreOf { hitWorld with skills := ⟨true, 1, false, 0, 1.0⟩ } := htar
  refine ⟨rfl, htar, ?_, ?_⟩
  · exact (claim6_collision_damage hitWorld 0 0 100 100 dummyRnd rfl rfl
      (fun _ => le_refl 0) (fun _ => le_refl 0) htar (by decide)
      (by norm_num [hitWorld, w0, normalSpawnRate])).1
  · have h2 := (claim6_collision_damage
      { hitWorld with skills := ⟨true, 1, false, 0, 1.0⟩ } 0 0 100 100 dummyRnd
      rfl rfl (fun _ => by decide) (fun h => absurd h (by decide)) htar2
      (by decide) (by norm_num [hitWorld, w0, normalSpawnRate])).1
    simpa using h2

/-- Claim C6 as stated is refuted: a single frame from a playing world with
nonnegative health (1) and two enemies inside the proximity radius leaves
health at -1 — the collision loop decrements health once per colliding
enemy, so one frame can push health below zero. -/
theorem claim6_health_goes_negative :
    (0 : ℤ) ≤ cexWorld.health ∧ cexWorld.gs = GameStateF.PLAYING ∧
    (tick 0 0 100 100 dummyRnd cexWorld).health = -1 := by
  have htar : cexWorld.score < targetScoreOf cexWorld := by
    show (0 : ℤ) < targetScoreOf cexWorld
    norm_num [targetScoreOf, getTargetScore, LEVEL_SCORES, cexWorld, w0]
  refine ⟨by norm_num [cexWorld, w0], rfl, ?_⟩
  rw [tick_plain 0 0 100 100 dummyRnd cexWorld rfl rfl (fun _ => le_refl 0)
    (fun _ => le_refl 0) htar (by decide)
    (by norm_num [cexWorld, w0, normalSpawnRate])]
  rw [(particleStep_frame _).2.2.1, moveCollide_health]
  rw [show cexWorld.skills.shieldActive = false from rfl]
  rw [if_neg (by simp)]
  have hc : ∀ i : ℕ, collides ((100 : ℝ) / 2) ((100 : ℝ) / 2) (centerEnemy i) := by
    intro i
    refine ⟨rfl, ?_⟩
    have h0 : ((100 : ℝ) / 2 - (centerEnemy i).x) ^ 2 +
        ((100 : ℝ) / 2 - (centerEnemy i).y) ^ 2 = 0 := by
      norm_num [centerEnemy]
    show Real.sqrt (((100 : ℝ) / 2 - (centerEnemy i).x) ^ 2 +
      ((100 : ℝ) / 2 - (centerEnemy i).y) ^ 2) < 45
    rw [h0, Real.sqrt_zero]
    norm_num
  have hfilt : (cexWorld.enemies.filter fun e =>
      decide (collides ((100 : ℝ) / 2) ((100 : ℝ) / 2) e)) = cexWorld.enemies := by
    apply List.filter_eq_self.mpr
    intro e he
    have h2 : e ∈ [centerEnemy 0, centerEnemy 1] := he
    have hmem : e = centerEnemy 0 ∨ e = centerEnemy 1 := by simpa using h2
    rcases hmem with h | h <;> (rw [h]; exact decide_eq_true (hc _))
  rw [hfilt]
  show cexWorld.health - ((2 : ℕ) : ℤ) = -1
  norm_num [cexWorld, w0]

end Game

/-! ### The evenly spaced circle stroke: chord lengths and path length -/

theorem getDistance_circPt (n j k : ℕ) :
    getDistance (circPt n j) (circPt n k) =
      100 * |Real.sin (π * ((k : ℝ) - (j : ℝ)) / n)| := by
  unfold getDistance circPt
  have hsq : (50 * Real.cos (circAngle n k) - 50 * Real.cos (circAngle n j)) ^ 2 +
      (50 * Real.sin (circAngle n k) - 50 * Real.sin (circAngle n j)) ^ 2 =
      (100 * Real.sin ((circAngle n k - circAngle n j) / 2)) ^ 2 := by
    have h1 : Real.cos (circAngle n k - circAngle n j) =
        Real.cos (circAngle n k) * Real.cos (circAngle n j) +
        Real.sin (circAngle n k) * Real.sin (circAngle n j) :=
      Real.cos_sub _ _
    have h2 : Real.sin ((circAngle n k - circAngle n j) / 2) ^ 2 =
        1 / 2 - Real.cos (2 * ((circAngle n k - circAngle n j) / 2)) / 2 :=
      Real.sin_sq_eq_half_sub _
    have h3 : 2 * ((circAngle n k - circAngle n j) / 2) =
        circAngle n k - circAngle n j := by ring
    rw [h3] at h2
    nlinarith [Real.sin_sq_add_cos_sq (circAngle n k),
      Real.sin_sq_add_cos_sq (circAngle n j), h1, h2]
  rw [hsq, Real.sqrt_sq_eq_abs, abs_mul]
  have hang : (circAngle n k - circAngle n j) / 2 = π * ((k : ℝ) - (j : ℝ)) / n := by
    unfold circAngle
    ring
  rw [hang]
  norm_num

theorem sin_pi_div_nonneg {n : ℕ} (hn : 1 ≤ n) : 0 ≤ Real.sin (π / n) := by
  apply Real.sin_nonneg_of_nonneg_of_le_pi
  · positivity
  · have hn' : (1 : ℝ) ≤ n := by exact_mod_cast hn
    rw [div_le_iff (by linarith)]
    nlinarith [Real.pi_pos]

theorem sin_pi_div_pos {n : ℕ} (hn : 2 ≤ n) : 0 < Real.sin (π / n) := by
  apply Real.sin_pos_of_pos_of_lt_pi
  · have hn' : (0 : ℝ) < n := by positivity
    positivity
  · have hn' : (2 : ℝ) ≤ n := by exact_mod_cast hn
    rw [div_lt_iff (by linarith)]
    nlinarith [Real.pi_pos]

theorem getDistance_circPt_succ (n k : ℕ) (hn : 1 ≤ n) :
    getDistance (circPt n k) (circPt n (k + 1)) = 100 * Real.sin (π / n) := by
  rw [getDistance_circPt]
  have h1 : π * (((k + 1 : ℕ) : ℝ) - ((k : ℕ) : ℝ)) / n = π / n := by
    push_cast
    ring
  rw [h1, abs_of_nonneg (sin_pi_div_nonneg hn)]

theorem getDistance_circPt_last (n : ℕ) (hn : 1 ≤ n) :
    getDistance (circPt n 0) (circPt n (n - 1)) = 100 * Real.sin (π / n) := by
  rw [getDistance_circPt]
  have hn0 : ((n : ℝ)) ≠ 0 := by positivity
  have h1 : π * (((n - 1 : ℕ) : ℝ) - ((0 : ℕ) : ℝ)) / n = π - π / n := by
    rw [Nat.cast_sub hn]
    push_cast
    field_simp
    ring
  rw [h1, Real.sin_pi_sub, abs_of_nonneg (sin_pi_div_nonneg hn)]

theorem circlePts_length (n : ℕ) : (circlePts n).length = n := by
  simp [circlePts]

theorem circlePts_headI {n : ℕ} (hn : 0 < n) : (circlePts n).headI = circPt n 0 :=
  headI_range_map _ hn

theorem circlePts_endPt {n : ℕ} (hn : 0 < n) : endPt (circlePts n) = circPt n (n - 1) := by
  have h := endPt_range_map (circPt n) hn
  simpa [circlePts] using h

theorem circlePts_pathLength (n : ℕ) (hn : 1 ≤ n) :
    getPathLength (circlePts n) = ((n : ℝ) - 1) * (100 * Real.sin (π / n)) := by
  obtain ⟨m, rfl⟩ : ∃ m, n = m + 1 := ⟨n - 1, by omega⟩
  unfold circlePts
  rw [getPathLength_const_step (circPt (m + 1)) m _
    (fun k _ => getDistance_circPt_succ (m + 1) k (by omega))]
  push_cast
  ring

theorem circlePts_total_ge (n : ℕ) (hn : 8 ≤ n) :
    175 ≤ getPathLength (circlePts n) := by
  rw [circlePts_pathLength n (by omega)]
  have hn' : (8 : ℝ) ≤ n := by exact_mod_cast hn
  have hn0 : (0 : ℝ) < n := by linarith
  have hhalf : π / n ≤ π / 2 := by
    apply div_le_div_of_nonneg_left Real.pi_pos.le (by norm_num)
    linarith
  have hj : 2 / π * (π / n) ≤ Real.sin (π / n) :=
    Real.mul_le_sin (by positivity) hhalf
  have hs : (2 : ℝ) / n ≤ Real.sin (π / n) := by
    have h2 : 2 / π * (π / n) = 2 / n := by
      field_simp
    linarith
  have h4 : ((n : ℝ) - 1) * (2 / n) ≤ ((n : ℝ) - 1) * Real.sin (π / n) :=
    mul_le_mul_of_nonneg_left hs (by linarith)
  have h5 : (1.75 : ℝ) ≤ ((n : ℝ) - 1) * (2 / n) := by
    rw [show ((n : ℝ) - 1) * (2 / n) = 2 - 2 / n from by field_simp; ring]
    have h6 : 2 / (n : ℝ) ≤ 2 / 8 := div_le_div_of_nonneg_left (by norm_num) (by norm_num) hn'
    linarith
  nlinarith [h4, h5]

theorem circlePts_closed (n : ℕ) (hn : 8 ≤ n) :
    getDistance (circlePts n).headI (endPt (circlePts n)) <
      getPathLength (circlePts n) * 0.50 := by
  rw [circlePts_headI (by omega), circlePts_endPt (by omega),
    getDistance_circPt_last n (by omega), circlePts_pathLength n (by omega)]
  have hs : 0 < Real.sin (π / n) := sin_pi_div_pos (by omega)
  have hn' : (8 : ℝ) ≤ n := by exact_mod_cast hn
  nlinarith [hs]

/-! ### The circle stroke's bounding box -/

theorem circPt_mem (n : ℕ) {k : ℕ} (hk : k < n) : circPt n k ∈ circlePts n :=
  List.mem_map.mpr ⟨k, List.mem_range.mpr hk, rfl⟩

theorem circlePts_ne_nil {n : ℕ} (hn : 0 < n) : circlePts n ≠ [] :=
  range_map_ne_nil _ hn

theorem cos_near {d b : ℝ} (hbπ : b ≤ π) (hd : |d| ≤ b) :
    Real.cos b ≤ Real.cos d := by
  rw [← Real.cos_abs d]
  exact Real.cos_le_cos_of_nonneg_of_le_pi (abs_nonneg d) hbπ hd

theorem pi_div_n_le_pi {n : ℕ} (hn : 1 ≤ n) : π / n ≤ π := by
  have hn' : (1 : ℝ) ≤ n := by exact_mod_cast hn
  rw [div_le_iff (by linarith)]
  nlinarith [Real.pi_pos]

theorem circlePts_maxX {n : ℕ} (hn : 0 < n) : maxXof (circlePts n) = 50 := by
  apply le_antisymm
  · apply foldMaxOf_le (fun p => p.x) (circlePts_ne_nil hn)
    intro p hp
    obtain ⟨k, -, rfl⟩ := List.mem_map.mp hp
    show 50 * Real.cos (circAngle n k) ≤ 50
    nlinarith [Real.cos_le_one (circAngle n k)]
  · have h0 := le_foldMaxOf (fun p => p.x) (circPt_mem n hn)
    have hx : (circPt n 0).x = 50 := by
      show 50 * Real.cos (circAngle n 0) = 50
      unfold circAngle
      norm_num
    exact le_trans (le_of_eq hx.symm) h0

theorem circlePts_minX_ge {n : ℕ} (hn : 0 < n) : -50 ≤ minXof (circlePts n) := by
  apply le_foldMinOf (fun p => p.x) (circlePts_ne_nil hn)
  intro p hp
  obtain ⟨k, -, rfl⟩ := List.mem_map.mp hp
  show -50 ≤ 50 * Real.cos (circAngle n k)
  nlinarith [Real.neg_one_le_cos (circAngle n k)]

theorem circlePts_maxY_le {n : ℕ} (hn : 0 < n) : maxYof (circlePts n) ≤ 50 := by
  apply foldMaxOf_le (fun p => p.y) (circlePts_ne_nil hn)
  intro p hp
  obtain ⟨k, -, rfl⟩ := List.mem_map.mp hp
  show 50 * Real.sin (circAngle n k) ≤ 50
  nlinarith [Real.sin_le_one (circAngle n k)]

theorem circlePts_minY_ge {n : ℕ} (hn : 0 < n) : -50 ≤ minYof (circlePts n) := by
  apply le_foldMinOf (fun p => p.y) (circlePts_ne_nil hn)
  intro p hp
  obtain ⟨k, -, rfl⟩ := List.mem_map.mp hp
  show -50 ≤ 50 * Real.sin (circAngle n k)
  nlinarith [Real.neg_one_le_sin (circAngle n k)]

theorem circlePts_minX_le (n : ℕ) (hn : 8 ≤ n) :
    minXof (circlePts n) ≤ -50 * Real.cos (π / n) := by
  have hk : n / 2 < n := by omega
  refine le_trans (foldMinOf_le (fun p => p.x) (circPt_mem n hk)) ?_
  show 50 * Real.cos (circAngle n (n / 2)) ≤ -50 * Real.cos (π / n)
  have hn0 : ((n : ℝ)) ≠ 0 := by positivity
  have hang : circAngle n (n / 2) =
      π + π * (2 * ((n / 2 : ℕ) : ℝ) - n) / n := by
    unfold circAngle
    field_simp
    ring
  have hdb : |π * (2 * ((n / 2 : ℕ) : ℝ) - n) / n| ≤ π / n := by
    rw [abs_div, abs_mul, abs_of_nonneg Real.pi_pos.le,
      abs_of_nonneg (by positivity : (0 : ℝ) ≤ (n : ℝ))]
    apply div_le_div_of_nonneg_right ?_ (by positivity)
    have hm : |2 * ((n / 2 : ℕ) : ℝ) - n| ≤ 1 := by
      have ha : 2 * (n / 2) ≤ n := by omega
      have hb : n ≤ 2 * (n / 2) + 1 := by omega
      have ha' : 2 * ((n / 2 : ℕ) : ℝ) ≤ n := by exact_mod_cast ha
      have hb' : (n : ℝ) ≤ 2 * ((n / 2 : ℕ) : ℝ) + 1 := by exact_mod_cast hb
      rw [abs_le]
      constructor <;> linarith
    nlinarith [hm, Real.pi_pos]
  have hcos := cos_near (pi_div_n_le_pi (by omega)) hdb
  have hpa : Real.cos (π + π * (2 * ((n / 2 : ℕ) : ℝ) - n) / n) =
      -Real.cos (π * (2 * ((n / 2 : ℕ) : ℝ) - n) / n) := by
    rw [Real.cos_add]
    simp
  rw [hang, hpa]
  nlinarith [hcos]

theorem circlePts_maxY_ge (n : ℕ) (hn : 8 ≤ n) :
    50 * Real.cos (π / n) ≤ maxYof (circlePts n) := by
  have hk : (n + 2) / 4 < n := by omega
  refine le_trans ?_ (le_foldMaxOf (fun p => p.y) (circPt_mem n hk))
  show 50 * Real.cos (π / n) ≤ 50 * Real.sin (circAngle n ((n + 2) / 4))
  have hn0 : ((n : ℝ)) ≠ 0 := by positivity
  have hang : circAngle n ((n + 2) / 4) =
      π / 2 + π * (4 * (((n + 2) / 4 : ℕ) : ℝ) - n) / (2 * n) := by
    unfold circAngle
    field_simp
    ring
  have hdb : |π * (4 * (((n + 2) / 4 : ℕ) : ℝ) - n) / (2 * n)| ≤ π / n := by
    rw [abs_div, abs_mul, abs_of_nonneg Real.pi_pos.le,
      abs_of_nonneg (by positivity : (0 : ℝ) ≤ 2 * (n : ℝ))]
    rw [div_le_div_iff (by positivity) (by positivity)]
    have hm : |4 * (((n + 2) / 4 : ℕ) : ℝ) - n| ≤ 2 := by
      have ha : 4 * ((n + 2) / 4) ≤ n + 2 := by omega
      have hb : n ≤ 4 * ((n + 2) / 4) + 1 := by omega
      have ha' : 4 * (((n + 2) / 4 : ℕ) : ℝ) ≤ (n : ℝ) + 2 := by exact_mod_cast ha
      have hb' : (n : ℝ) ≤ 4 * (((n + 2) / 4 : ℕ) : ℝ) + 1 := by exact_mod_cast hb
      rw [abs_le]
      constructor <;> linarith
    nlinarith [mul_le_mul_of_nonneg_left hm (by positivity : (0 : ℝ) ≤ π * n)]
  have hcos := cos_near (pi_div_n_le_pi (by omega)) hdb
  have hpa : Real.sin (π / 2 + π * (4 * (((n + 2) / 4 : ℕ) : ℝ) - n) / (2 * n)) =
      Real.cos (π * (4 * (((n + 2) / 4 : ℕ) : ℝ) - n) / (2 * n)) := by
    rw [Real.sin_add]
    simp
  rw [hang, hpa]
  nlinarith [hcos]

theorem circlePts_minY_le (n : ℕ) (hn : 8 ≤ n) :
    minYof (circlePts n) ≤ -50 * Real.cos (π / n) := by
  have hk : (3 * n + 2) / 4 < n := by omega
  refine le_trans (foldMinOf_le (fun p => p.y) (circPt_mem n hk)) ?_
  show 50 * Real.sin (circAngle n ((3 * n + 2) / 4)) ≤ -50 * Real.cos (π / n)
  have hn0 : ((n : ℝ)) ≠ 0 := by positivity
  have hang : circAngle n ((3 * n + 2) / 4) =
      π + (π / 2 + π * (4 * (((3 * n + 2) / 4 : ℕ) : ℝ) - 3 * n) / (2 * n)) := by
    unfold circAngle
    field_simp
    ring
  have hdb : |π * (4 * (((3 * n + 2) / 4 : ℕ) : ℝ) - 3 * n) / (2 * n)| ≤ π / n := by
    rw [abs_div, abs_mul, abs_of_nonneg Real.pi_pos.le,
      abs_of_nonneg (by positivity : (0 : ℝ) ≤ 2 * (n : ℝ))]
    rw [div_le_div_iff (by positivity) (by positivity)]
    have hm : |4 * (((3 * n + 2) / 4 : ℕ) : ℝ) - 3 * n| ≤ 2 := by
      have ha : 4 * ((3 * n + 2) / 4) ≤ 3 * n + 2 := by omega
      have hb : 3 * n ≤ 4 * ((3 * n + 2) / 4) + 1 := by omega
      have ha' : 4 * (((3 * n + 2) / 4 : ℕ) : ℝ) ≤ 3 * (n : ℝ) + 2 := by
        exact_mod_cast ha
      have hb' : 3 * (n : ℝ) ≤ 4 * (((3 * n + 2) / 4 : ℕ) : ℝ) + 1 := by
        exact_mod_cast hb
      rw [abs_le]
      constructor <;> linarith
    nlinarith [mul_le_mul_of_nonneg_left hm (by positivity : (0 : ℝ) ≤ π * n)]
  have hcos := cos_near (pi_div_n_le_pi (by omega)) hdb
  have hpa : Real.sin (π + (π / 2 +
      π * (4 * (((3 * n + 2) / 4 : ℕ) : ℝ) - 3 * n) / (2 * n))) =
      -Real.cos (π * (4 * (((3 * n + 2) / 4 : ℕ) : ℝ) - 3 * n) / (2 * n)) := by
    rw [Real.sin_add, Real.sin_add, Real.cos_add]
    simp
  rw [hang, hpa]
  nlinarith [hcos]

theorem cos_pi_div_ge {n : ℕ} (hn : 8 ≤ n) : 0.92 ≤ Real.cos (π / n) := by
  have hn' : (8 : ℝ) ≤ n := by exact_mod_cast hn
  have h : 1 - (π / n) ^ 2 / 2 ≤ Real.cos (π / n) := Real.one_sub_sq_div_two_le_cos
  have hp : π / n ≤ π / 8 :=
    div_le_div_of_nonneg_left Real.pi_pos.le (by norm_num) hn'
  have hp0 : 0 ≤ π / n := by positivity
  nlinarith [h, hp, hp0, Real.pi_lt_315, Real.pi_gt_3141592]

/-! ### Aspect ratio and radius statistics of the circle stroke -/

theorem circlePts_height_bounds (n : ℕ) (hn : 8 ≤ n) :
    100 * Real.cos (π / n) ≤ heightOf (circlePts n) ∧
    heightOf (circlePts n) ≤ 100 := by
  unfold heightOf
  have h1 := circlePts_maxY_ge n hn
  have h2 := circlePts_maxY_le (show 0 < n by omega)
  have h3 := circlePts_minY_le n hn
  have h4 := circlePts_minY_ge (show 0 < n by omega)
  constructor <;> nlinarith

theorem circlePts_width_bounds (n : ℕ) (hn : 8 ≤ n) :
    50 + 50 * Real.cos (π / n) ≤ widthOf (circlePts n) ∧
    widthOf (circlePts n) ≤ 100 := by
  unfold widthOf
  have h1 := circlePts_maxX (show 0 < n by omega)
  have h2 := circlePts_minX_le n hn
  have h3 := circlePts_minX_ge (show 0 < n by omega)
  constructor <;> nlinarith

theorem circlePts_aspect_window (n : ℕ) (hn : 8 ≤ n) :
    0.3 < widthOf (circlePts n) / safeDenom (heightOf (circlePts n)) ∧
    widthOf (circlePts n) / safeDenom (heightOf (circlePts n)) < 3.3 := by
  have hc := cos_pi_div_ge hn
  obtain ⟨hh1, hh2⟩ := circlePts_height_bounds n hn
  obtain ⟨hw1, hw2⟩ := circlePts_width_bounds n hn
  have hhpos : 0 < heightOf (circlePts n) := by nlinarith
  rw [safeDenom_of_ne (ne_of_gt hhpos)]
  constructor
  · rw [lt_div_iff hhpos]
    nlinarith
  · rw [div_lt_iff hhpos]
    nlinarith

theorem circlePts_centerX_bounds (n : ℕ) (hn : 8 ≤ n) :
    |GestureV1.bboxCenterX (circlePts n)| ≤ 2 := by
  have hc := cos_pi_div_ge hn
  have h1 := circlePts_maxX (show 0 < n by omega)
  have h2 := circlePts_minX_le n hn
  have h3 := circlePts_minX_ge (show 0 < n by omega)
  unfold GestureV1.bboxCenterX widthOf
  rw [abs_le]
  constructor <;> nlinarith

theorem circlePts_centerY_bounds (n : ℕ) (hn : 8 ≤ n) :
    |GestureV1.bboxCenterY (circlePts n)| ≤ 2 := by
  have hc := cos_pi_div_ge hn
  have h1 := circlePts_maxY_ge n hn
  have h2 := circlePts_maxY_le (show 0 < n by omega)
  have h3 := circlePts_minY_le n hn
  have h4 := circlePts_minY_ge (show 0 < n by omega)
  unfold GestureV1.bboxCenterY heightOf
  rw [abs_le]
  constructor <;> nlinarith

theorem circlePts_radius_mem_bounds (n : ℕ) (hn : 8 ≤ n) :
    ∀ r ∈ GestureV1.radii (circlePts n), 47 ≤ r ∧ r ≤ 52.9 := by
  intro r hr
  unfold GestureV1.radii at hr
  obtain ⟨p, hp, rfl⟩ := List.mem_map.mp hr
  obtain ⟨k, -, rfl⟩ := List.mem_map.mp hp
  have hbX := circlePts_centerX_bounds n hn
  have hbY := circlePts_centerY_bounds n hn
  obtain ⟨hbX1, hbX2⟩ := abs_le.mp hbX
  obtain ⟨hbY1, hbY2⟩ := abs_le.mp hbY
  have hX2 : GestureV1.bboxCenterX (circlePts n) ^ 2 ≤ 4 := by nlinarith
  have hY2 : GestureV1.bboxCenterY (circlePts n) ^ 2 ≤ 4 := by nlinarith
  have hpyth := Real.sin_sq_add_cos_sq (circAngle n k)
  have hL : (2209 : ℝ) ≤ ((circPt n k).x - GestureV1.bboxCenterX (circlePts n)) ^ 2 +
      ((circPt n k).y - GestureV1.bboxCenterY (circlePts n)) ^ 2 := by
    show (2209 : ℝ) ≤ (50 * Real.cos (circAngle n k) -
        GestureV1.bboxCenterX (circlePts n)) ^ 2 +
      (50 * Real.sin (circAngle n k) - GestureV1.bboxCenterY (circlePts n)) ^ 2
    nlinarith [hpyth, hX2, hY2,
      sq_nonneg (GestureV1.bboxCenterX (circlePts n) * Real.sin (circAngle n k) -
        GestureV1.bboxCenterY (circlePts n) * Real.cos (circAngle n k)),
      sq_nonneg (GestureV1.bboxCenterX (circlePts n) * Real.cos (circAngle n k) +
        GestureV1.bboxCenterY (circlePts n) * Real.sin (circAngle n k) - 3),
      sq_nonneg (GestureV1.bboxCenterX (circlePts n)),
      sq_nonneg (GestureV1.bboxCenterY (circlePts n))]
  have hU : ((circPt n k).x - GestureV1.bboxCenterX (circlePts n)) ^ 2 +
      ((circPt n k).y - GestureV1.bboxCenterY (circlePts n)) ^ 2 ≤ (2798.41 : ℝ) := by
    show (50 * Real.cos (circAngle n k) -
        GestureV1.bboxCenterX (circlePts n)) ^ 2 +
      (50 * Real.sin (circAngle n k) - GestureV1.bboxCenterY (circlePts n)) ^ 2 ≤
      (2798.41 : ℝ)
    nlinarith [hpyth, hX2, hY2,
      sq_nonneg (GestureV1.bboxCenterX (circlePts n) * Real.sin (circAngle n k) -
        GestureV1.bboxCenterY (circlePts n) * Real.cos (circAngle n k)),
      sq_nonneg (GestureV1.bboxCenterX (circlePts n) * Real.cos (circAngle n k) +
        GestureV1.bboxCenterY (circlePts n) * Real.sin (circAngle n k) + 3)]
  constructor
  · have h1 : Real.sqrt 2209 ≤ Real.sqrt
        (((circPt n k).x - GestureV1.bboxCenterX (circlePts n)) ^ 2 +
          ((circPt n k).y - GestureV1.bboxCenterY (circlePts n)) ^ 2) :=
      Real.sqrt_le_sqrt hL
    have h2 : Real.sqrt 2209 = 47 := by
      rw [show (2209 : ℝ) = 47 ^ 2 by norm_num, Real.sqrt_sq (by norm_num)]
    linarith
  · have h1 : Real.sqrt (((circPt n k).x - GestureV1.bboxCenterX (circlePts n)) ^ 2 +
        ((circPt n k).y - GestureV1.bboxCenterY (circlePts n)) ^ 2) ≤
        Real.sqrt 2798.41 :=
      Real.sqrt_le_sqrt hU
    have h2 : Real.sqrt 2798.41 = 52.9 := by
      rw [show (2798.41 : ℝ) = 52.9 ^ 2 by norm_num, Real.sqrt_sq (by norm_num)]
    linarith

theorem circlePts_radii_length (n : ℕ) :
    (GestureV1.radii (circlePts n)).length = n := by
  unfold GestureV1.radii
  rw [List.length_map, circlePts_length]

theorem circlePts_avg_bounds (n : ℕ) (hn : 8 ≤ n) :
    47 ≤ GestureV1.avgRadius (circlePts n) ∧
    GestureV1.avgRadius (circlePts n) ≤ 52.9 := by
  have hb := circlePts_radius_mem_bounds n hn
  have hlen := circlePts_radii_length n
  have hnn : (0 : ℝ) < n := by
    have : 0 < n := by omega
    exact_mod_cast this
  have hsum_le := List.sum_le_card_nsmul (GestureV1.radii (circlePts n)) (52.9 : ℝ)
    (fun x hx => (hb x hx).2)
  have hsum_ge := List.card_nsmul_le_sum (GestureV1.radii (circlePts n)) (47 : ℝ)
    (fun x hx => (hb x hx).1)
  rw [hlen, nsmul_eq_mul] at hsum_le hsum_ge
  unfold GestureV1.avgRadius
  rw [hlen]
  constructor
  · rw [le_div_iff hnn]
    linarith
  · rw [div_le_iff hnn]
    linarith

theorem circlePts_variance_bounds (n : ℕ) (hn : 8 ≤ n) :
    0 ≤ GestureV1.radiusVariance (circlePts n) ∧
    GestureV1.radiusVariance (circlePts n) ≤ 34.81 := by
  have hb := circlePts_radius_mem_bounds n hn
  obtain ⟨ha1, ha2⟩ := circlePts_avg_bounds n hn
  have hlen := circlePts_radii_length n
  have hnn : (0 : ℝ) < n := by
    have : 0 < n := by omega
    exact_mod_cast this
  have hmap_le : ∀ x ∈ (GestureV1.radii (circlePts n)).map
      (fun r => (r - GestureV1.avgRadius (circlePts n)) ^ 2), x ≤ (34.81 : ℝ) := by
    intro x hx
    obtain ⟨r, hr, rfl⟩ := List.mem_map.mp hx
    obtain ⟨hr1, hr2⟩ := hb r hr
    nlinarith
  have hmap_ge : ∀ x ∈ (GestureV1.radii (circlePts n)).map
      (fun r => (r - GestureV1.avgRadius (circlePts n)) ^ 2), (0 : ℝ) ≤ x := by
    intro x hx
    obtain ⟨r, hr, rfl⟩ := List.mem_map.mp hx
    positivity
  have h1 := List.sum_le_card_nsmul _ _ hmap_le
  have h2 := List.card_nsmul_le_sum _ _ hmap_ge
  rw [List.length_map, hlen, nsmul_eq_mul] at h1 h2
  unfold GestureV1.radiusVariance
  rw [hlen]
  constructor
  · apply div_nonneg ?_ (le_of_lt hnn)
    linarith
  · rw [div_le_iff hnn]
    linarith

theorem circlePts_cv_lt (n : ℕ) (hn : 8 ≤ n) :
    GestureV1.radiusCV (circlePts n) < 0.15 := by
  obtain ⟨hv0, hv⟩ := circlePts_variance_bounds n hn
  obtain ⟨ha1, ha2⟩ := circlePts_avg_bounds n hn
  unfold GestureV1.radiusCV
  have hsd : Real.sqrt (GestureV1.radiusVariance (circlePts n)) ≤ 5.9 := by
    have h1 : Real.sqrt (GestureV1.radiusVariance (circlePts n)) ≤
        Real.sqrt 34.81 := Real.sqrt_le_sqrt hv
    have h2 : Real.sqrt 34.81 = 5.9 := by
      rw [show (34.81 : ℝ) = 5.9 ^ 2 by norm_num, Real.sqrt_sq (by norm_num)]
    linarith
  have havg : 0 < GestureV1.avgRadius (circlePts n) := by linarith
  rw [div_lt_iff havg]
  linarith

/-- Claim C4: every stroke of 8 or more points evenly spaced around a circle
of radius 50 classifies as the round symbol CIRCLE, and the coefficient of
variation of the points' distances from the detector's center is near zero
(below 0.15, far inside the 0.35 acceptance threshold). -/
theorem claim4_even_circle_classifies_round (n : ℕ) (hn : 8 ≤ n) :
    GestureV1.recognizeGesture (circlePts n) = some SpellType.CIRCLE ∧
    GestureV1.radiusCV (circlePts n) < 0.15 := by
  have hcv := circlePts_cv_lt n hn
  refine ⟨?_, hcv⟩
  have hlen : ¬ (circlePts n).length < 8 := by
    rw [circlePts_length]
    omega
  have hclosed := circlePts_closed n hn
  have htotal : getPathLength (circlePts n) > 60 :=
    lt_of_lt_of_le (by norm_num) (circlePts_total_ge n hn)
  obtain ⟨hasp1, hasp2⟩ := circlePts_aspect_window n hn
  simp only [GestureV1.recognizeGesture]
  rw [if_neg hlen, if_pos ⟨hclosed, htotal⟩, if_pos ⟨hasp1, hasp2⟩]
  rcases lt_or_le 0.60 (GestureV1.roundnessOf (circlePts n)) with hr | hr
  · rw [if_pos hr]
  · rw [if_neg (not_lt.mpr hr),
      if_pos (lt_trans hcv (by norm_num) : GestureV1.radiusCV (circlePts n) < 0.35)]

/-- Satisfiability witness for the C4 theorem at the smallest admitted count,
8 points. -/
theorem claim4_even_circle_classifies_round_witness :
    8 ≤ 8 ∧ GestureV1.recognizeGesture (circlePts 8) = some SpellType.CIRCLE :=
  ⟨le_refl 8, (claim4_even_circle_classifies_round 8 (le_refl 8)).1⟩

end CatSalom
